import Mathlib

/-!
# Device session gateway and streaming recognition adapter

A shallow embedding of `internal/app/server/mqtt_udp/mqtt_server.go` and
`internal/domain/asr/doubao/doubao.go`, followed by the theorems that settle the
specification's claims about them.

Conventions of the embedding:

* Go strings are Lean `String`s. The only separators and replaced characters in this
  code are the ASCII characters `/`, `_` and `:`, so working on characters instead of
  UTF-8 bytes gives the same result.
* Bytes are `UInt8`, byte slices are `List UInt8`.
* A Go pointer that may be `nil` is an `Option`.
* Calls into collaborators that are not part of the modelled files are recorded, in
  program order, in a trace of `Effect`s (gateway) or `Action`s (adapter).
-/

namespace strings

/-- Segments of a character list separated by `sep`; the result is never empty and an
empty input gives one empty segment (Go `strings.Split` with a one-character separator). -/
def splitChars (sep : Char) : List Char → List (List Char)
  | [] => [[]]
  | c :: cs =>
    if c = sep then [] :: splitChars sep cs
    else
      match splitChars sep cs with
      | [] => [[c]]
      | seg :: segs => (c :: seg) :: segs

/-- Go `strings.Split(s, sep)` for a one-character separator. -/
def Split (s : String) (sep : Char) : List String :=
  (splitChars sep s.toList).map String.mk

/-- Go `strings.ReplaceAll(s, old, new)` for one-character `old` and `new`. -/
def ReplaceAll (s : String) (old new : Char) : String :=
  String.mk (s.toList.map fun c => if c = old then new else c)

end strings

namespace hex

/-- The digit table of Go `encoding/hex`. -/
def hextable : List Char := "0123456789abcdef".toList

/-- Go `hex.EncodeToString`: two digits per byte, high nibble first. -/
def EncodeToString (src : List UInt8) : String :=
  String.mk (src.flatMap fun v =>
    [hextable.getD (v.toNat / 16) '0', hextable.getD (v.toNat % 16) '0'])

end hex

namespace mqtt_udp

/-- Body of `MqttServer.getDeviceIdByTopic` (the receiver is not used): the raw
address token and the device identifier, both empty unless the topic has four
segments. -/
def getDeviceIdByTopic (topic : String) : String × String :=
  let strList := strings.Split topic '/'
  if strList.length = 4 then
    let topicMacAddr := strList.getD 3 ""
    (topicMacAddr, strings.ReplaceAll topicMacAddr '_' ':')
  else
    ("", "")

/-- The `fullNonce` value built in `handleHello`:
`append(append(append(prefix, length...), session.Nonce[:]...), seq...)`. -/
def fullNonce (nonce : List UInt8) : List UInt8 :=
  let pfx : List UInt8 := [0x01, 0x00]
  let length : List UInt8 := [0x00, 0x00]
  let seq : List UInt8 := [0x00, 0x00, 0x00, 0x00]
  ((pfx ++ length) ++ nonce) ++ seq

/-- Modelled from the spec: the declaration of the audio format record is not among
the modelled files; §6 lists its four fields and `handleHello` reads them. -/
structure AudioFormat where
  Format : String
  SampleRate : Int
  Channels : Int
  FrameDuration : Int
  deriving DecidableEq, Repr

/-- Modelled from the spec: the declaration of `client.ClientMessage` is not among
the modelled files. The fields are the ones the code reads (`Type_` is Go `Type`);
`AudioParams` is a pointer (the code dereferences it), `none` when the message has no
`audio_params`. -/
structure ClientMessage where
  Type_ : String
  Transport : String
  AudioParams : Option AudioFormat
  deriving DecidableEq, Repr

/-- The part of `mqtt.Message` the code uses: `Topic()` and `Payload()`. -/
structure Message where
  Topic : String
  Payload : String
  deriving DecidableEq, Repr

/-- Modelled from the spec: the transport session handed out by the transport
collaborator (`UdpServer.CreateSession`), whose declaration is not among the modelled
files: an identifier, a symmetric key and a random nonce seed (§6). -/
structure UdpSession where
  ID : String
  AesKey : List UInt8
  Nonce : List UInt8
  deriving DecidableEq, Repr

/-- Modelled from the spec: the handler state `client.ClientState`, whose declaration
is not among the modelled files. `Conn` is the reply destination the handler publishes
to; `AsrPcmFrameSize` is what `SetAsrPcmFrameSize` stores. -/
structure ClientState where
  DeviceID : String
  Conn : String
  UdpInfo : UdpSession
  InputAudioFormat : AudioFormat
  OutputAudioFormat : AudioFormat
  AsrPcmFrameSize : Int
  deriving DecidableEq, Repr

/-- Modelled from the spec: `common.ChatManager`, the handler object bound to one
device session; it owns the client state. -/
structure ChatManager where
  clientState : ClientState
  deriving DecidableEq, Repr

/-- Modelled from the spec: `common.NewChatManager`. -/
def NewChatManager (clientState : ClientState) : ChatManager := ⟨clientState⟩

/-- Modelled from the spec: `ChatManager.GetClientState`. -/
def ChatManager.GetClientState (chatManager : ChatManager) : ClientState :=
  chatManager.clientState

/-- Modelled from the spec: `ChatManager.GetDeviceId`, the identifier the handler was
built for. -/
def ChatManager.GetDeviceId (chatManager : ChatManager) : String :=
  chatManager.clientState.DeviceID

/-- The `udp` object of the handshake reply. -/
structure UdpReply where
  server : String
  port : Int
  key : String
  nonce : String
  deriving DecidableEq, Repr

/-- The `response` map built at the end of `handleHello`, with its six keys. -/
structure HelloResponse where
  type : String
  version : Int
  session_id : String
  transport : String
  udp : UdpReply
  audio_params : AudioFormat
  deriving DecidableEq, Repr

/-- Calls the gateway makes on its collaborators and on the registry, in program
order. A handler method is recorded with the handler it is called on. -/
inductive Effect where
  | CreateSession (topic : String)
  | CloseSession (id : String)
  | SessionBind (id : String) (clientState : ClientState)
  | Store (key : String) (chatManager : ChatManager)
  | Delete (key : String)
  | Cancel (clientState : ClientState)
  | Destroy (clientState : ClientState)
  | UpdateLastActiveTs (clientState : ClientState)
  | HandleTextMessage (receiver : Option ChatManager) (payload : String)
  | ProcessVadAudio (clientState : ClientState)
  | WriteJSON (conn : String) (response : HelloResponse)
  deriving DecidableEq, Repr

/-- What the gateway takes from outside the modelled files: constants, the transport
collaborator, JSON decoding, and the handler's own policies. -/
structure Env where
  /-- The constant `MessageTypeHello`. -/
  MessageTypeHello : String
  /-- The constant `client.ServerPubTopicPrefix`. -/
  ServerPubTopicPrefix : String
  /-- The field `udpServer.externalHost`. -/
  externalHost : String
  /-- The field `udpServer.externalPort`. -/
  externalPort : Int
  /-- Result of `udpServer.CreateSession(topic)`; `none` is the nil session. -/
  CreateSession : String → Option UdpSession
  /-- Result of `json.Unmarshal` on a payload; `none` is a decoding error. -/
  Unmarshal : String → Option ClientMessage
  /-- Error, if any, of `client.GenMqttUdpClientState` on its arguments. -/
  genError : String → String → UdpSession → ClientMessage → Option String
  /-- Input format the constructor gives a new handler, defaults included. -/
  inputAudioFormat : Option AudioFormat → AudioFormat
  /-- Output format of a new handler. -/
  outputAudioFormat : AudioFormat
  /-- Frame size computed by `SetAsrPcmFrameSize(sampleRate, channels, frameDuration)`. -/
  asrPcmFrameSize : Int → Int → Int → Int
  /-- Result of `ClientState.IsActive`. -/
  IsActive : ClientState → Bool

/-- Modelled from the spec: `client.GenMqttUdpClientState` is not among the modelled
files. Per §4.3 step 6 it constructs a handler bound to the normalized device
identifier, the reply destination, the allocated transport session and the requested
audio parameters; whether it fails, and the formats it picks, are the collaborator's. -/
def GenMqttUdpClientState (env : Env) (deviceId publicTopic : String) (session : UdpSession)
    (clientMsg : ClientMessage) : Except String ClientState :=
  match env.genError deviceId publicTopic session clientMsg with
  | some err => .error err
  | none => .ok
      { DeviceID := deviceId
        Conn := publicTopic
        UdpInfo := session
        InputAudioFormat := env.inputAudioFormat clientMsg.AudioParams
        OutputAudioFormat := env.outputAudioFormat
        AsrPcmFrameSize := 0 }

/-- Modelled from the spec: `ClientState.SetAsrPcmFrameSize`. -/
def ClientState.SetAsrPcmFrameSize (env : Env) (clientState : ClientState)
    (sampleRate channels frameDuration : Int) : ClientState :=
  { clientState with AsrPcmFrameSize := env.asrPcmFrameSize sampleRate channels frameDuration }

end mqtt_udp

/-- Go `sync.Map` with string keys, as an association list holding at most one entry per
key once built by `Store`. `Range` visits the entries of the list in order. -/
abbrev syncMap (V : Type) := List (String × V)

namespace syncMap

/-- Go `(*sync.Map).Store`: replaces any binding of the key. -/
def Store {V : Type} (m : syncMap V) (key : String) (value : V) : syncMap V :=
  (key, value) :: m.filter (fun e => e.1 ≠ key)

/-- Go `(*sync.Map).Load`. -/
def Load {V : Type} (m : syncMap V) (key : String) : Option V :=
  (m.find? (fun e => e.1 = key)).map Prod.snd

/-- Go `(*sync.Map).Delete`. -/
def Delete {V : Type} (m : syncMap V) (key : String) : syncMap V :=
  m.filter (fun e => e.1 ≠ key)

end syncMap

namespace mqtt_udp

/-- How a call ended: by returning, or by the panic of a nil pointer dereference. -/
inductive Completion where
  | returned
  | panicked
  deriving DecidableEq, Repr

/-- The state of `MqttServer` the claims are about: the registry
`deviceId2ChatManager`, and the trace of effects so far (oldest first). -/
structure MqttServer where
  deviceId2ChatManager : syncMap ChatManager
  trace : List Effect
  deriving DecidableEq, Repr

/-- Appends one effect to the trace. -/
def MqttServer.emit (s : MqttServer) (e : Effect) : MqttServer :=
  { s with trace := s.trace ++ [e] }

/-- An assignment through the handler pointer held in the registry under `key`: the
registry stores pointers, so a field written after `Store` is seen through the entry. -/
def MqttServer.assign (s : MqttServer) (key : String) (clientState : ClientState) :
    MqttServer :=
  { s with deviceId2ChatManager :=
      s.deviceId2ChatManager.map fun e => if e.1 = key then (e.1, ⟨clientState⟩) else e }

/-- The method `MqttServer.SetChatManager`. -/
def MqttServer.SetChatManager (s : MqttServer) (chatManager : ChatManager) : MqttServer :=
  { s with deviceId2ChatManager :=
      syncMap.Store s.deviceId2ChatManager chatManager.GetDeviceId chatManager }.emit
    (.Store chatManager.GetDeviceId chatManager)

/-- The method `MqttServer.getChatManager`; `none` is the nil handler. -/
def MqttServer.getChatManager (s : MqttServer) (deviceId : String) : Option ChatManager :=
  syncMap.Load s.deviceId2ChatManager deviceId

/-- The method `MqttServer.handleHello`, statement by statement. The session back-reference
`session.ClientState = clientState` is the effect `SessionBind`; dereferencing a nil
`clientMsg.AudioParams` panics, after the handler has been stored. -/
def MqttServer.handleHello (env : Env) (s : MqttServer) (msg : Message)
    (clientMsg : ClientMessage) : Completion × MqttServer :=
  if clientMsg.Transport ≠ "udp" then (.returned, s)
  else
    let s := s.emit (.CreateSession msg.Topic)
    match env.CreateSession msg.Topic with
    | none => (.returned, s)
    | some session =>
      let (topicMacAddr, deviceId) := getDeviceIdByTopic msg.Topic
      if deviceId = "" then (.returned, s)
      else
        let publicTopic := env.ServerPubTopicPrefix ++ topicMacAddr
        match GenMqttUdpClientState env deviceId publicTopic session clientMsg with
        | .error _ => (.returned, s)
        | .ok clientState =>
          let chatManager := NewChatManager clientState
          let s := s.emit (.SessionBind session.ID clientState)
          let s := s.SetChatManager chatManager
          match clientMsg.AudioParams with
          | none => (.panicked, s)
          | some audioParams =>
            let clientState := { clientState with InputAudioFormat := audioParams }
            let clientState := clientState.SetAsrPcmFrameSize env
              clientState.InputAudioFormat.SampleRate clientState.InputAudioFormat.Channels
              clientState.InputAudioFormat.FrameDuration
            let s := s.assign chatManager.GetDeviceId clientState
            let s := s.emit (.ProcessVadAudio clientState)
            let strAesKey := hex.EncodeToString session.AesKey
            let strFullNonce := hex.EncodeToString (fullNonce session.Nonce)
            let response : HelloResponse :=
              { type := env.MessageTypeHello
                version := 3
                session_id := session.ID
                transport := "udp"
                udp :=
                  { server := env.externalHost
                    port := env.externalPort
                    key := strAesKey
                    nonce := strFullNonce }
                audio_params := clientState.OutputAudioFormat }
            (.returned, s.emit (.WriteJSON clientState.Conn response))

/-- The method `MqttServer.handleMessage`. The call `chatManager.HandleTextMessage` is made on
whatever `getChatManager` returned, nil included; what the callee does with a nil
receiver is outside the modelled files, the call itself is recorded. -/
def MqttServer.handleMessage (env : Env) (s : MqttServer) (msg : Message) :
    Completion × MqttServer :=
  match env.Unmarshal msg.Payload with
  | none => (.returned, s)
  | some clientMsg =>
    if clientMsg.Type_ = env.MessageTypeHello then s.handleHello env msg clientMsg
    else
      let deviceId := (getDeviceIdByTopic msg.Topic).2
      if deviceId = "" then (.returned, s)
      else
        let chatManager := s.getChatManager deviceId
        let s :=
          match chatManager with
          | some cm => s.emit (.UpdateLastActiveTs cm.GetClientState)
          | none => s
        if clientMsg.Type_ = env.MessageTypeHello then s.handleHello env msg clientMsg
        else (.returned, s.emit (.HandleTextMessage chatManager msg.Payload))

/-- The callback `checkClientActive` passes to `Range`, applied to one entry. -/
def MqttServer.visit (env : Env) (s : MqttServer) (key : String) (chatManager : ChatManager) :
    MqttServer :=
  let clientState := chatManager.GetClientState
  if !env.IsActive clientState then
    let s := s.emit (.CloseSession clientState.UdpInfo.ID)
    let s := { s with deviceId2ChatManager := syncMap.Delete s.deviceId2ChatManager key }.emit
      (.Delete key)
    let s := s.emit (.Cancel clientState)
    s.emit (.Destroy clientState)
  else s

/-- One tick of the loop in `checkClientActive`: `Range` over the entries the registry
holds when the tick starts. -/
def MqttServer.tick (env : Env) (s : MqttServer) : MqttServer :=
  s.deviceId2ChatManager.foldl (fun st e => st.visit env e.1 e.2) s

end mqtt_udp

namespace doubao

/-- Modelled from the spec: `response.AsrResponse` and its payload are declared outside
the modelled files; these are the fields `receiveStreamResults` reads. `PayloadMsg` is a
pointer, `none` when nil. -/
structure AsrResult where
  Text : String
  deriving DecidableEq, Repr

/-- The payload record holding the recognition result. -/
structure AsrPayload where
  Result : AsrResult
  deriving DecidableEq, Repr

/-- One decoded response of the recognition service. -/
structure AsrResponse where
  PayloadMsg : Option AsrPayload
  IsLastPackage : Bool
  deriving DecidableEq, Repr

/-- The record `types.StreamingResult` sent on the output channel. -/
structure StreamingResult where
  Text : String
  IsFinal : Bool
  deriving DecidableEq, Repr

/-- The connection object returned by `client.NewAsrWsClient`. -/
structure AsrWsClient where
  WsURL : String
  AppID : String
  AccessToken : String
  deriving DecidableEq, Repr

/-- What the adapter does to its connection, its goroutines and its output channel, in
program order. -/
inductive Action where
  | CreateConnection
  | SendFullClientRequest
  | Close
  | goStartAudioStream
  | goReceiveStreamResults
  | send (result : StreamingResult)
  | closeResultChan
  deriving DecidableEq, Repr

/-- Which case of the `select` in `receiveStreamResults` fires: the context is done,
the response channel is closed (`ok` false), or a response is received. -/
inductive Select where
  | ctxDone
  | closed
  | recv (result : AsrResponse)
  deriving DecidableEq, Repr

/-- Outcome of the two set-up calls on the connection: the error, if any. -/
structure Backend where
  CreateConnection : Option String
  SendFullClientRequest : Option String
  deriving DecidableEq, Repr

/-- The deferred function of `receiveStreamResults`. -/
def deferred (client : Option AsrWsClient) : List Action :=
  Action.closeResultChan ::
    (match client with
     | some _ => [Action.Close]
     | none => [])

/-- The method `DoubaoV2ASR.receiveStreamResults` run against the successive outcomes of its
`select`. The send `resultChan <- ...` stands outside the `select`: it completes only
while the output channel has room, and otherwise blocks for good, whatever the context
does. `room` is the number of sends that can still complete, that is the free slots of
the channel buffer plus the transcripts the consumer will still take; `none` when the
consumer never stops reading. The flag tells whether the function returned; it is false
when the loop is still waiting for an outcome or is blocked in a send. Responses on the
channel are non-nil. -/
def receiveStreamResults (client : Option AsrWsClient) :
    Option Nat → List Select → Bool × List Action
  | _, [] => (false, [])
  | _, .ctxDone :: _ => (true, deferred client)
  | _, .closed :: _ => (true, deferred client)
  | room, .recv result :: rest =>
    let out : Option StreamingResult :=
      match result.PayloadMsg with
      | some payload =>
        if payload.Result.Text ≠ "" then
          some { Text := payload.Result.Text, IsFinal := result.IsLastPackage }
        else none
      | none => none
    if out.isSome ∧ room = some 0 then (false, [])
    else
      let sent : List Action :=
        match out with
        | some o => [Action.send o]
        | none => []
      let room := if out.isSome then room.map (· - 1) else room
      if result.IsLastPackage then (true, sent ++ deferred client)
      else
        let r := receiveStreamResults client room rest
        (r.1, sent ++ r.2)

/-- The method `DoubaoV2ASR.StreamingRecognize`: the returned pair (whether the output channel is
returned, the error) and the actions taken. Allocating the client object and the two
channels has no effect outside the function and is not recorded. -/
def StreamingRecognize (b : Backend) : (Bool × Option String) × List Action :=
  match b.CreateConnection with
  | some err => ((false, some ("create connection err: " ++ err)), [.CreateConnection])
  | none =>
    match b.SendFullClientRequest with
    | some err =>
      ((false, some ("send full request err: " ++ err)),
        [.CreateConnection, .SendFullClientRequest, .Close])
    | none =>
      ((true, none),
        [.CreateConnection, .SendFullClientRequest, .goStartAudioStream,
          .goReceiveStreamResults])

/-- The room of the output channel `StreamingRecognize` makes,
`make(chan types.StreamingResult, 10)`, for a consumer that takes `reads` transcripts in
all (`none`: it reads until the channel is closed). -/
def freshRoom (reads : Option Nat) : Option Nat :=
  reads.map fun n => 10 + n

/-- One recognition request: `StreamingRecognize`, then, when it started the receiver,
the receiver run on the client and on the fresh output channel it was given. -/
def recognize (c : AsrWsClient) (b : Backend) (reads : Option Nat) (sched : List Select) :
    List Action :=
  let r := StreamingRecognize b
  if Action.goReceiveStreamResults ∈ r.2 then
    r.2 ++ (receiveStreamResults (some c) (freshRoom reads) sched).2
  else r.2

/-- The transcripts sent on the output channel, in order. -/
def outputs (acts : List Action) : List StreamingResult :=
  acts.filterMap fun a =>
    match a with
    | .send result => some result
    | _ => none

end doubao

namespace mqtt_udp

/-- The topic made of four segments joined by slashes. -/
def topicOf (a b c d : String) : String := a ++ "/" ++ b ++ "/" ++ c ++ "/" ++ d

/-- The handshake replies written in a trace, in order. -/
def replies (t : List Effect) : List HelloResponse :=
  t.filterMap fun e =>
    match e with
    | .WriteJSON _ response => some response
    | _ => none

/-- Whether an effect is one of the tear-down calls: closing a transport session,
cancelling a handler, destroying a handler. -/
def Effect.isTeardown : Effect → Bool
  | .CloseSession _ => true
  | .Cancel _ => true
  | .Destroy _ => true
  | _ => false

/-- The effects a call added to the trace of the state it started from. -/
def added (before after : MqttServer) : List Effect :=
  after.trace.drop before.trace.length

/-- The handler as `handleHello` leaves it: the constructed state with the input format
of the message and the frame size derived from it. -/
def boundHandler (env : Env) (built : ClientState) (audioParams : AudioFormat) : ChatManager :=
  ⟨{ built with
      InputAudioFormat := audioParams
      AsrPcmFrameSize :=
        env.asrPcmFrameSize audioParams.SampleRate audioParams.Channels
          audioParams.FrameDuration }⟩

/-- The hello payload of the end-to-end example of the specification. -/
def helloPayload : String :=
  "\x7b\"type\":\"hello\",\"transport\":\"udp\",\"audio_params\":\x7b\"format\":\"opus\",\"sample_rate\":16000,\"channels\":1,\"frame_duration\":60\x7d\x7d"

/-- A hello payload without `audio_params`. -/
def bareHelloPayload : String := "\x7b\"type\":\"hello\",\"transport\":\"udp\"\x7d"

/-- A payload that is not a hello. -/
def listenPayload : String := "\x7b\"type\":\"listen\",\"state\":\"start\"\x7d"

/-- A sample environment: every topic gets a session named after it, construction never
fails, devices are active unless their identifier is `AA:BB`, and the three sample
payloads decode to their messages. -/
def sampleEnv : Env where
  MessageTypeHello := "hello"
  ServerPubTopicPrefix := "/p2p/device_sub/"
  externalHost := "10.0.0.1"
  externalPort := 8990
  CreateSession := fun topic =>
    some { ID := "session:" ++ topic, AesKey := List.replicate 16 7,
           Nonce := [1, 2, 3, 4, 5, 6, 7, 8] }
  Unmarshal := fun payload =>
    if payload = helloPayload then
      some { Type_ := "hello", Transport := "udp", AudioParams := some ⟨"opus", 16000, 1, 60⟩ }
    else if payload = bareHelloPayload then
      some { Type_ := "hello", Transport := "udp", AudioParams := none }
    else if payload = listenPayload then
      some { Type_ := "listen", Transport := "", AudioParams := none }
    else none
  genError := fun _ _ _ _ => none
  inputAudioFormat := fun o => o.getD ⟨"opus", 16000, 1, 20⟩
  outputAudioFormat := ⟨"opus", 24000, 1, 20⟩
  asrPcmFrameSize := fun sampleRate channels frameDuration =>
    sampleRate * channels * frameDuration / 1000
  IsActive := fun clientState => clientState.DeviceID ≠ "AA:BB"

/-- The server with an empty registry and an empty trace. -/
def emptyServer : MqttServer := { deviceId2ChatManager := [], trace := [] }

/-- The address path of the end-to-end example of the specification. -/
def sampleTopic : String := "a/b/c/AA_BB_CC_DD_EE_FF"

/-- The hello of the end-to-end example, decoded. -/
def sampleHello : ClientMessage :=
  { Type_ := "hello", Transport := "udp", AudioParams := some ⟨"opus", 16000, 1, 60⟩ }

/-- The transport session `sampleEnv` allocates for `sampleTopic`. -/
def sampleSession : UdpSession :=
  { ID := "session:a/b/c/AA_BB_CC_DD_EE_FF", AesKey := List.replicate 16 7,
    Nonce := [1, 2, 3, 4, 5, 6, 7, 8] }

/-- The handler state the constructor builds for the example hello in `sampleEnv`. -/
def sampleBuilt : ClientState :=
  { DeviceID := "AA:BB:CC:DD:EE:FF"
    Conn := "/p2p/device_sub/AA_BB_CC_DD_EE_FF"
    UdpInfo := sampleSession
    InputAudioFormat := ⟨"opus", 16000, 1, 60⟩
    OutputAudioFormat := ⟨"opus", 24000, 1, 20⟩
    AsrPcmFrameSize := 0 }

/-- The transport collaborator at a later time: it hands out a session with another
identifier, key and nonce. -/
def laterEnv : Env :=
  { sampleEnv with
    CreateSession := fun topic =>
      some { ID := "later:" ++ topic, AesKey := List.replicate 16 9,
             Nonce := [8, 7, 6, 5, 4, 3, 2, 1] } }

/-- The transport session `laterEnv` allocates for `sampleTopic`. -/
def laterSession : UdpSession :=
  { ID := "later:a/b/c/AA_BB_CC_DD_EE_FF", AesKey := List.replicate 16 9,
    Nonce := [8, 7, 6, 5, 4, 3, 2, 1] }

/-- The handler state built for the example hello in `laterEnv`. -/
def laterBuilt : ClientState := { sampleBuilt with UdpInfo := laterSession }

/-- The server after the example hello has been handled once. -/
def onceServer : MqttServer :=
  (emptyServer.handleHello sampleEnv ⟨sampleTopic, helloPayload⟩ sampleHello).2

/-- The four tear-down effects of one registry entry, in the order of the
specification: close the transport session, remove the entry, cancel, destroy. -/
def teardown (e : String × ChatManager) : List Effect :=
  [ .CloseSession e.2.GetClientState.UdpInfo.ID,
    .Delete e.1,
    .Cancel e.2.GetClientState,
    .Destroy e.2.GetClientState ]

/-- The entries whose handler reports not active. -/
def inactive (env : Env) (m : syncMap ChatManager) : syncMap ChatManager :=
  m.filter fun e => !env.IsActive e.2.GetClientState

/-- The entries whose handler reports active. -/
def active (env : Env) (m : syncMap ChatManager) : syncMap ChatManager :=
  m.filter fun e => env.IsActive e.2.GetClientState

/-- A handler state for the device `deviceId` on the transport session `sessionId`. -/
def sampleState (deviceId sessionId : String) : ClientState :=
  { sampleBuilt with
    DeviceID := deviceId
    UdpInfo := { sampleSession with ID := sessionId } }

/-- A server with two registered devices: `AA:BB`, which `sampleEnv` reports inactive,
and `AA:BB:CC:DD:EE:FF`, which it reports active. -/
def twoServer : MqttServer :=
  { deviceId2ChatManager :=
      [ ("AA:BB", ⟨sampleState "AA:BB" "s1"⟩),
        ("AA:BB:CC:DD:EE:FF", ⟨sampleState "AA:BB:CC:DD:EE:FF" "s2"⟩) ]
    trace := [] }

end mqtt_udp

namespace doubao

/-- The text of a response; a response without payload has none. -/
def text (r : AsrResponse) : String :=
  match r.PayloadMsg with
  | some payload => payload.Result.Text
  | none => ""

/-- The transcript of a response: its text and its terminal flag. -/
def transcript (r : AsrResponse) : StreamingResult :=
  { Text := text r, IsFinal := r.IsLastPackage }

/-- The responses up to and including the first terminal one. -/
def uptoFirstTerminal (rs : List AsrResponse) : List AsrResponse :=
  rs.takeWhile (fun r => !r.IsLastPackage) ++ (rs.dropWhile (fun r => !r.IsLastPackage)).take 1

/-- Whether a `select` outcome ends the receiver: cancellation, a closed response
channel, or a terminal response. -/
def Select.ends : Select → Bool
  | .ctxDone => true
  | .closed => true
  | .recv result => result.IsLastPackage

/-- A response carrying `txt`, terminal or not. -/
def response (txt : String) (terminal : Bool) : AsrResponse :=
  { PayloadMsg := some ⟨⟨txt⟩⟩, IsLastPackage := terminal }

/-- A sample connection object. -/
def sampleClient : AsrWsClient := { WsURL := "wss://asr", AppID := "app", AccessToken := "token" }

end doubao

namespace mqtt_udp

/-- The registry invariant `SetChatManager` maintains: one entry per key, each handler
stored under its own device identifier. -/
def MqttServer.WellFormed (s : MqttServer) : Prop :=
  (s.deviceId2ChatManager.map Prod.fst).Nodup ∧
    ∀ e ∈ s.deviceId2ChatManager, e.2.GetDeviceId = e.1

instance (s : MqttServer) : Decidable s.WellFormed := by
  unfold MqttServer.WellFormed
  exact inferInstance

/-- One thing that happens to the server: a message is delivered, or the supervisor
ticks. Each comes with the environment of that moment, since the collaborators change
over time. -/
inductive Step where
  | message (env : Env) (msg : Message)
  | tick (env : Env)

/-- The server after one step. A panic inside `handleMessage` is taken as recovered: the
state it left is the state the next step starts from. -/
def MqttServer.step (s : MqttServer) : Step → MqttServer
  | .message env msg => (s.handleMessage env msg).2
  | .tick env => s.tick env

/-- The identifiers of the transport sessions the `CreateSession` calls of a trace
handed out, in order; a call that returned nil hands out none. -/
def allocated (env : Env) (t : List Effect) : List String :=
  t.filterMap fun e =>
    match e with
    | .CreateSession topic => (env.CreateSession topic).map UdpSession.ID
    | _ => none

/-- The identifiers of the transport sessions a trace closes. -/
def closedIds (t : List Effect) : List String :=
  t.filterMap fun e =>
    match e with
    | .CloseSession id => some id
    | _ => none

/-- The transport sessions a trace allocates and does not close. -/
def stillOpen (env : Env) (t : List Effect) : List String :=
  (allocated env t).filter fun id => id ∉ closedIds t

/-- The sample environment with a handler constructor that always fails. -/
def failingEnv : Env :=
  { sampleEnv with genError := fun _ _ _ _ => some "no provider configured" }

end mqtt_udp

namespace doubao

/-- The `select` outcome that ends a run of the receiver, if any: the first one that is
a cancellation, a closed response channel or a terminal response. -/
def trigger (sched : List Select) : Option Select :=
  sched.find? Select.ends

/-- The `select` outcomes a run can take at most: those up to and including the first
one that ends the run. -/
def consumed : List Select → List Select
  | [] => []
  | e :: es => if e.ends then [e] else e :: consumed es

end doubao

namespace strings

theorem splitChars_ne_nil (sep : Char) (l : List Char) : splitChars sep l ≠ [] := by
  induction l with
  | nil => simp [splitChars]
  | cons c cs ih =>
    unfold splitChars
    split
    · simp
    · split
      · simp
      · simp

theorem splitChars_of_not_mem (sep : Char) (a : List Char) (h : sep ∉ a) :
    splitChars sep a = [a] := by
  induction a with
  | nil => simp [splitChars]
  | cons c cs ih =>
    have hc : c ≠ sep := fun e => h (by simp [e])
    have hcs : sep ∉ cs := fun e => h (by simp [e])
    simp [splitChars, hc, ih hcs]

theorem splitChars_append (sep : Char) (a rest : List Char) (h : sep ∉ a) :
    splitChars sep (a ++ sep :: rest) = a :: splitChars sep rest := by
  induction a with
  | nil => simp [splitChars]
  | cons c cs ih =>
    have hc : c ≠ sep := fun e => h (by simp [e])
    have hcs : sep ∉ cs := fun e => h (by simp [e])
    simp [splitChars, hc, ih hcs]

theorem splitChars_join (sep : Char) (l : List Char) :
    [sep].intercalate (splitChars sep l) = l := by
  induction l with
  | nil => simp [splitChars, List.intercalate]
  | cons c cs ih =>
    unfold splitChars
    by_cases hc : c = sep
    · simp only [hc, if_true]
      cases hs : splitChars sep cs with
      | nil => exact absurd hs (splitChars_ne_nil sep cs)
      | cons seg segs =>
        rw [hs] at ih
        simp [List.intercalate, List.intersperse] at ih ⊢
        exact ih
    · simp only [hc, if_false]
      cases hs : splitChars sep cs with
      | nil => exact absurd hs (splitChars_ne_nil sep cs)
      | cons seg segs =>
        rw [hs] at ih
        cases segs with
        | nil => simp [List.intercalate, List.intersperse] at ih ⊢; exact ih
        | cons s2 ss => simp [List.intercalate, List.intersperse] at ih ⊢; exact ih

theorem splitChars_no_sep (sep : Char) (l : List Char) :
    ∀ seg ∈ splitChars sep l, sep ∉ seg := by
  induction l with
  | nil => simp [splitChars]
  | cons c cs ih =>
    unfold splitChars
    by_cases hc : c = sep
    · simp only [hc, if_true]
      intro seg hseg
      rcases List.mem_cons.1 hseg with h | h
      · simp [h]
      · exact ih seg h
    · simp only [hc, if_false]
      cases hs : splitChars sep cs with
      | nil => exact absurd hs (splitChars_ne_nil sep cs)
      | cons s ss =>
        rw [hs] at ih
        intro seg hseg
        rcases List.mem_cons.1 hseg with h | h
        · subst h
          have := ih s (by simp)
          simp only [List.mem_cons, not_or]
          exact ⟨fun e => hc e.symm, this⟩
        · exact ih seg (by simp [h])

end strings

namespace mqtt_udp

theorem topicOf_toList (a b c d : String) :
    (topicOf a b c d).toList
      = a.toList ++ '/' :: (b.toList ++ '/' :: (c.toList ++ '/' :: d.toList)) := by
  simp [topicOf, String.toList]

theorem split_topicOf (a b c d : String) (ha : '/' ∉ a.toList) (hb : '/' ∉ b.toList)
    (hc : '/' ∉ c.toList) (hd : '/' ∉ d.toList) :
    strings.Split (topicOf a b c d) '/' = [a, b, c, d] := by
  unfold strings.Split
  rw [topicOf_toList, strings.splitChars_append _ _ _ ha, strings.splitChars_append _ _ _ hb,
    strings.splitChars_append _ _ _ hc, strings.splitChars_of_not_mem _ _ hd]
  simp [String.toList]

theorem topicOf_of_split (topic : String) (h : (strings.Split topic '/').length = 4) :
    ∃ a b c d : String, '/' ∉ a.toList ∧ '/' ∉ b.toList ∧ '/' ∉ c.toList ∧ '/' ∉ d.toList ∧
      topic = topicOf a b c d := by
  unfold strings.Split at h
  rw [List.length_map] at h
  have hj := strings.splitChars_join '/' topic.toList
  have hn := strings.splitChars_no_sep '/' topic.toList
  match hs : strings.splitChars '/' topic.toList, h with
  | [a, b, c, d], _ =>
    rw [hs] at hj hn
    refine ⟨⟨a⟩, ⟨b⟩, ⟨c⟩, ⟨d⟩, hn a (by simp), hn b (by simp), hn c (by simp), hn d (by simp), ?_⟩
    apply String.ext
    show topic.toList = (topicOf ⟨a⟩ ⟨b⟩ ⟨c⟩ ⟨d⟩).toList
    rw [topicOf_toList]
    simp [List.intercalate, List.intersperse, String.toList] at hj ⊢
    exact hj.symm

/-- C3. For every topic: when the topic is four slash-free segments joined by slashes,
`getDeviceIdByTopic` returns the last segment and that segment with each underscore
turned into a colon; when the topic is not of that form, it returns two empty strings;
and the topic `a/b/c/AA_BB_CC_DD_EE_FF` gives the identifier `AA:BB:CC:DD:EE:FF`. -/
theorem getDeviceIdByTopic_spec (topic : String) :
    (∀ a b c d : String, '/' ∉ a.toList → '/' ∉ b.toList → '/' ∉ c.toList → '/' ∉ d.toList →
      topic = a ++ "/" ++ b ++ "/" ++ c ++ "/" ++ d →
      (getDeviceIdByTopic topic).1 = d ∧
      (getDeviceIdByTopic topic).2.toList
        = d.toList.map (fun ch => if ch = '_' then ':' else ch)) ∧
    ((¬ ∃ a b c d : String, '/' ∉ a.toList ∧ '/' ∉ b.toList ∧ '/' ∉ c.toList ∧
        '/' ∉ d.toList ∧ topic = a ++ "/" ++ b ++ "/" ++ c ++ "/" ++ d) →
      getDeviceIdByTopic topic = ("", "")) ∧
    getDeviceIdByTopic "a/b/c/AA_BB_CC_DD_EE_FF"
      = ("AA_BB_CC_DD_EE_FF", "AA:BB:CC:DD:EE:FF") := by
  refine ⟨?_, ?_, by decide⟩
  · intro a b c d ha hb hc hd ht
    have hsplit := split_topicOf a b c d ha hb hc hd
    have ht2 : topic = topicOf a b c d := ht
    subst ht2
    simp [getDeviceIdByTopic, hsplit, strings.ReplaceAll]
  · intro hno
    by_cases h4 : (strings.Split topic '/').length = 4
    · exact absurd (topicOf_of_split topic h4) hno
    · simp [getDeviceIdByTopic, h4]

end mqtt_udp

namespace hex

theorem hextable_getD_mem (i : Nat) : hextable.getD i '0' ∈ hextable := by
  by_cases h : i < 16
  · interval_cases i <;> decide
  · have hlen : hextable.length ≤ i := by
      have : hextable.length = 16 := by decide
      omega
    rw [List.getD_eq_default _ _ hlen]
    decide

theorem EncodeToString_length (src : List UInt8) :
    (EncodeToString src).length = 2 * src.length := by
  unfold EncodeToString
  induction src with
  | nil => rfl
  | cons b bs ih =>
    simp only [String.length, List.flatMap_cons, List.length_append, List.length_cons,
      List.length_nil] at ih ⊢
    omega

theorem EncodeToString_digits (src : List UInt8) :
    ∀ ch ∈ (EncodeToString src).toList, ch ∈ hextable := by
  intro ch hch
  simp only [EncodeToString, String.toList, List.mem_flatMap, List.mem_cons,
    List.mem_singleton, List.not_mem_nil, or_false] at hch
  obtain ⟨v, -, h | h⟩ := hch
  · rw [h]; exact hextable_getD_mem _
  · rw [h]; exact hextable_getD_mem _

end hex

namespace mqtt_udp

/-- C2. For every 8-byte session nonce, the composite nonce built by `handleHello` has 16
bytes: `01 00 00 00`, then the session nonce, then `00 00 00 00`; and its hex encoding
is 32 characters long, each of them a hexadecimal digit. -/
theorem fullNonce_layout (nonce : List UInt8) (h : nonce.length = 8) :
    (fullNonce nonce).length = 16 ∧
    (fullNonce nonce).take 4 = [0x01, 0x00, 0x00, 0x00] ∧
    ((fullNonce nonce).drop 4).take 8 = nonce ∧
    (fullNonce nonce).drop 12 = [0x00, 0x00, 0x00, 0x00] ∧
    (hex.EncodeToString (fullNonce nonce)).length = 32 ∧
    ∀ ch ∈ (hex.EncodeToString (fullNonce nonce)).toList, ch ∈ "0123456789abcdef".toList := by
  have hlen : (fullNonce nonce).length = 16 := by simp [fullNonce, h]
  refine ⟨hlen, ?_, ?_, ?_, ?_, hex.EncodeToString_digits _⟩
  · simp [fullNonce]
  · have : fullNonce nonce = [0x01, 0x00, 0x00, 0x00] ++ (nonce ++ [0x00, 0x00, 0x00, 0x00]) := by
      simp [fullNonce]
    rw [this, List.drop_left' (by rfl), List.take_left' h]
  · have : fullNonce nonce = ([0x01, 0x00, 0x00, 0x00] ++ nonce) ++ [0x00, 0x00, 0x00, 0x00] := by
      simp [fullNonce]
    rw [this, List.drop_left' (by simp [h])]
  · rw [hex.EncodeToString_length, hlen]

/-- The layout of C2 at the nonce `01 02 03 04 05 06 07 08`. -/
theorem fullNonce_layout_witness :
    (fullNonce [1, 2, 3, 4, 5, 6, 7, 8]).length = 16 ∧
    hex.EncodeToString (fullNonce [1, 2, 3, 4, 5, 6, 7, 8])
      = "01000000010203040506070800000000" :=
  ⟨(fullNonce_layout [1, 2, 3, 4, 5, 6, 7, 8] (by decide)).1, by decide⟩

theorem getDeviceIdByTopic_of_four (topic : String)
    (h4 : (strings.Split topic '/').length = 4) :
    getDeviceIdByTopic topic
      = ((strings.Split topic '/').getD 3 "",
         strings.ReplaceAll ((strings.Split topic '/').getD 3 "") '_' ':') := by
  simp [getDeviceIdByTopic, h4]

theorem ReplaceAll_ne_empty (s : String) (old new : Char) (h : s ≠ "") :
    strings.ReplaceAll s old new ≠ "" := by
  intro e
  apply h
  have := congrArg String.toList e
  simp [strings.ReplaceAll, String.toList] at this
  exact String.ext this

theorem GenMqttUdpClientState_ok (env : Env) (deviceId publicTopic : String)
    (session : UdpSession) (clientMsg : ClientMessage) (built : ClientState)
    (h : GenMqttUdpClientState env deviceId publicTopic session clientMsg = .ok built) :
    built.DeviceID = deviceId ∧ built.Conn = publicTopic ∧ built.UdpInfo = session := by
  unfold GenMqttUdpClientState at h
  split at h
  · cases h
  · cases h; exact ⟨rfl, rfl, rfl⟩

/-- The state `handleHello` ends in on its success path. -/
theorem handleHello_success (env : Env) (s : MqttServer) (msg : Message)
    (clientMsg : ClientMessage) (session : UdpSession) (built : ClientState)
    (audioParams : AudioFormat)
    (hT : clientMsg.Transport = "udp")
    (h4 : (strings.Split msg.Topic '/').length = 4)
    (hseg : (strings.Split msg.Topic '/').getD 3 "" ≠ "")
    (hS : env.CreateSession msg.Topic = some session)
    (hG : GenMqttUdpClientState env (getDeviceIdByTopic msg.Topic).2
      (env.ServerPubTopicPrefix ++ (getDeviceIdByTopic msg.Topic).1) session clientMsg
        = .ok built)
    (hA : clientMsg.AudioParams = some audioParams) :
    s.handleHello env msg clientMsg =
      (.returned,
        { deviceId2ChatManager :=
            ((getDeviceIdByTopic msg.Topic).2, boundHandler env built audioParams) ::
              s.deviceId2ChatManager.filter (fun e => e.1 ≠ (getDeviceIdByTopic msg.Topic).2)
          trace := s.trace ++
            [ .CreateSession msg.Topic,
              .SessionBind session.ID built,
              .Store (getDeviceIdByTopic msg.Topic).2 ⟨built⟩,
              .ProcessVadAudio (boundHandler env built audioParams).clientState,
              .WriteJSON (env.ServerPubTopicPrefix ++ (getDeviceIdByTopic msg.Topic).1)
                { type := env.MessageTypeHello
                  version := 3
                  session_id := session.ID
                  transport := "udp"
                  udp :=
                    { server := env.externalHost
                      port := env.externalPort
                      key := hex.EncodeToString session.AesKey
                      nonce := hex.EncodeToString (fullNonce session.Nonce) }
                  audio_params := built.OutputAudioFormat } ] }) := by
  obtain ⟨hid, hconn, -⟩ := GenMqttUdpClientState_ok _ _ _ _ _ _ hG
  have hne : (getDeviceIdByTopic msg.Topic).2 ≠ "" := by
    rw [getDeviceIdByTopic_of_four _ h4]
    exact ReplaceAll_ne_empty _ _ _ hseg
  unfold MqttServer.handleHello
  simp only [hT, ne_eq, not_true_eq_false, if_false, hS, hne, hG, hA]
  simp [MqttServer.SetChatManager, MqttServer.emit, MqttServer.assign, NewChatManager,
    ChatManager.GetDeviceId, ClientState.SetAsrPcmFrameSize, syncMap.Store, boundHandler, hid,
    hconn]
  conv_rhs => rw [← List.map_id (List.filter _ s.deviceId2ChatManager)]
  apply List.map_congr_left
  intro e he
  have hk := (List.mem_filter.1 he).2
  simp only [Bool.not_eq_eq_eq_not, Bool.not_true, decide_eq_false_iff_not] at hk
  simp [hk]

/-- C1 (amended). For every hello message whose transport is `udp` and which carries
`audio_params`, arriving on a 4-segment topic whose last segment is not empty, for which
transport-session allocation and handler construction succeed, `handleHello` returns
and leaves the registry with exactly one entry for the derived device identifier, bound
to the newly built handler, and writes exactly one handshake reply, whose `session_id`
is the identifier of the allocated session and whose `transport` is `udp`. -/
theorem handleHello_registers_and_replies (env : Env) (s : MqttServer) (msg : Message)
    (clientMsg : ClientMessage) (session : UdpSession) (built : ClientState)
    (audioParams : AudioFormat)
    (hT : clientMsg.Transport = "udp")
    (h4 : (strings.Split msg.Topic '/').length = 4)
    (hseg : (strings.Split msg.Topic '/').getD 3 "" ≠ "")
    (hS : env.CreateSession msg.Topic = some session)
    (hG : GenMqttUdpClientState env (getDeviceIdByTopic msg.Topic).2
      (env.ServerPubTopicPrefix ++ (getDeviceIdByTopic msg.Topic).1) session clientMsg
        = .ok built)
    (hA : clientMsg.AudioParams = some audioParams) :
    (s.handleHello env msg clientMsg).1 = Completion.returned ∧
    (s.handleHello env msg clientMsg).2.deviceId2ChatManager.filter
        (fun e => e.1 = (getDeviceIdByTopic msg.Topic).2)
      = [((getDeviceIdByTopic msg.Topic).2, boundHandler env built audioParams)] ∧
    (s.handleHello env msg clientMsg).2.getChatManager (getDeviceIdByTopic msg.Topic).2
      = some (boundHandler env built audioParams) ∧
    (boundHandler env built audioParams).GetDeviceId = (getDeviceIdByTopic msg.Topic).2 ∧
    (boundHandler env built audioParams).GetClientState.UdpInfo = session ∧
    ∃ response : HelloResponse,
      replies (added s (s.handleHello env msg clientMsg).2) = [response] ∧
      response.session_id = session.ID ∧ response.transport = "udp" ∧
      response.udp.nonce = hex.EncodeToString (fullNonce session.Nonce) := by
  obtain ⟨hid, -, hsess⟩ := GenMqttUdpClientState_ok _ _ _ _ _ _ hG
  rw [handleHello_success env s msg clientMsg session built audioParams hT h4 hseg hS hG hA]
  refine ⟨rfl, ?_, ?_, ?_, ?_, ?_⟩
  · simp [List.filter_filter]
  · simp [MqttServer.getChatManager, syncMap.Load]
  · simpa [boundHandler, ChatManager.GetDeviceId] using hid
  · simpa [boundHandler, ChatManager.GetClientState] using hsess
  · simp only [added, List.drop_left, replies, List.filterMap_cons, List.filterMap_nil]
    exact ⟨_, rfl, rfl, rfl, rfl⟩

/-- The end-to-end example of the specification satisfies the hypotheses of C1 and gets
its reply. -/
theorem handleHello_registers_and_replies_witness :
    (emptyServer.handleHello sampleEnv ⟨sampleTopic, helloPayload⟩ sampleHello).1
      = Completion.returned :=
  (handleHello_registers_and_replies sampleEnv emptyServer ⟨sampleTopic, helloPayload⟩
    sampleHello sampleSession sampleBuilt ⟨"opus", 16000, 1, 60⟩ (by decide) (by decide)
    (by decide) (by decide) (by rfl) (by decide)).1

/-- C1 as stated fails on the 4-segment topic `a/b/c/`, whose last segment is empty:
allocation succeeds and construction would succeed, yet `handleHello` returns before
building a handler, the registry stays empty and no reply is written. -/
theorem handleHello_empty_segment_counterexample :
    sampleHello.Transport = "udp" ∧
    (strings.Split "a/b/c/" '/').length = 4 ∧
    (sampleEnv.CreateSession "a/b/c/").isSome = true ∧
    (GenMqttUdpClientState sampleEnv (getDeviceIdByTopic "a/b/c/").2
      (sampleEnv.ServerPubTopicPrefix ++ (getDeviceIdByTopic "a/b/c/").1)
      ⟨"session:a/b/c/", List.replicate 16 7, [1, 2, 3, 4, 5, 6, 7, 8]⟩ sampleHello).toBool
        = true ∧
    (emptyServer.handleHello sampleEnv ⟨"a/b/c/", helloPayload⟩ sampleHello).2.getChatManager
      (getDeviceIdByTopic "a/b/c/").2 = none ∧
    replies (emptyServer.handleHello sampleEnv ⟨"a/b/c/", helloPayload⟩ sampleHello).2.trace
      = [] := by
  decide

theorem find?_filter_of_imp {α : Type} (p q : α → Bool)
    (hpq : ∀ a, q a = true → p a = true) (l : List α) :
    (l.filter p).find? q = l.find? q := by
  induction l with
  | nil => rfl
  | cons x xs ih =>
    cases hp : p x
    · have hq : q x = false := by
        cases hqx : q x
        · rfl
        · rw [hpq x hqx] at hp; cases hp
      rw [List.filter_cons_of_neg (by simp [hp]), List.find?_cons_of_neg _ (by simp [hq]), ih]
    · rw [List.filter_cons_of_pos hp]
      cases hq : q x
      · rw [List.find?_cons_of_neg _ (by simp [hq]), List.find?_cons_of_neg _ (by simp [hq]), ih]
      · rw [List.find?_cons_of_pos _ hq, List.find?_cons_of_pos _ hq]

/-- A store under one key leaves the lookup of every other key as it was. -/
theorem Load_store_other {V : Type} (m : syncMap V) (key : String) (value : V)
    (other : String) (h : other ≠ key) :
    syncMap.Load ((key, value) :: m.filter (fun e => e.1 ≠ key)) other = syncMap.Load m other := by
  unfold syncMap.Load
  have hk : ¬ ((fun e : String × V => decide (e.1 = other)) (key, value) = true) := by
    simpa using fun e : key = other => h e.symm
  rw [List.find?_cons_of_neg (p := fun e : String × V => decide (e.1 = other)) _ hk]
  congr 1
  apply find?_filter_of_imp
  intro a ha
  have hao : a.1 = other := by simpa using ha
  simpa [hao] using h

/-- C4 (amended). For every device identifier that already has a registered handler, a
second successful `handleHello` for it leaves exactly one registry entry for the
identifier, bound to the new handler; the old handler is only replaced: the call issues
no close of a transport session, no cancel and no destroy. The other entries are
untouched: the registry is the new entry followed by the old entries of the other keys,
an entry of another key is in the registry after the call exactly when it was before,
and the lookup of every other key is unchanged. -/
theorem handleHello_supersedes (env : Env) (s : MqttServer) (msg : Message)
    (clientMsg : ClientMessage) (session : UdpSession) (built : ClientState)
    (audioParams : AudioFormat) (old : ChatManager)
    (hold : s.getChatManager (getDeviceIdByTopic msg.Topic).2 = some old)
    (hT : clientMsg.Transport = "udp")
    (h4 : (strings.Split msg.Topic '/').length = 4)
    (hseg : (strings.Split msg.Topic '/').getD 3 "" ≠ "")
    (hS : env.CreateSession msg.Topic = some session)
    (hG : GenMqttUdpClientState env (getDeviceIdByTopic msg.Topic).2
      (env.ServerPubTopicPrefix ++ (getDeviceIdByTopic msg.Topic).1) session clientMsg
        = .ok built)
    (hA : clientMsg.AudioParams = some audioParams) :
    (s.handleHello env msg clientMsg).2.deviceId2ChatManager.filter
        (fun e => e.1 = (getDeviceIdByTopic msg.Topic).2)
      = [((getDeviceIdByTopic msg.Topic).2, boundHandler env built audioParams)] ∧
    (s.handleHello env msg clientMsg).2.getChatManager (getDeviceIdByTopic msg.Topic).2
      = some (boundHandler env built audioParams) ∧
    (∀ e ∈ added s (s.handleHello env msg clientMsg).2, e.isTeardown = false) ∧
    Effect.CloseSession old.GetClientState.UdpInfo.ID
      ∉ added s (s.handleHello env msg clientMsg).2 ∧
    Effect.Cancel old.GetClientState ∉ added s (s.handleHello env msg clientMsg).2 ∧
    Effect.Destroy old.GetClientState ∉ added s (s.handleHello env msg clientMsg).2 ∧
    (s.handleHello env msg clientMsg).2.deviceId2ChatManager
      = ((getDeviceIdByTopic msg.Topic).2, boundHandler env built audioParams) ::
          s.deviceId2ChatManager.filter (fun e => e.1 ≠ (getDeviceIdByTopic msg.Topic).2) ∧
    (∀ e : String × ChatManager, e.1 ≠ (getDeviceIdByTopic msg.Topic).2 →
      (e ∈ (s.handleHello env msg clientMsg).2.deviceId2ChatManager ↔
        e ∈ s.deviceId2ChatManager)) ∧
    (∀ key : String, key ≠ (getDeviceIdByTopic msg.Topic).2 →
      (s.handleHello env msg clientMsg).2.getChatManager key = s.getChatManager key) := by
  have _ := hold
  rw [handleHello_success env s msg clientMsg session built audioParams hT h4 hseg hS hG hA]
  have hno : ∀ e ∈ added s
      { deviceId2ChatManager :=
          ((getDeviceIdByTopic msg.Topic).2, boundHandler env built audioParams) ::
            s.deviceId2ChatManager.filter (fun e => e.1 ≠ (getDeviceIdByTopic msg.Topic).2)
        trace := s.trace ++
          [ .CreateSession msg.Topic,
            .SessionBind session.ID built,
            .Store (getDeviceIdByTopic msg.Topic).2 ⟨built⟩,
            .ProcessVadAudio (boundHandler env built audioParams).clientState,
            .WriteJSON (env.ServerPubTopicPrefix ++ (getDeviceIdByTopic msg.Topic).1)
              { type := env.MessageTypeHello
                version := 3
                session_id := session.ID
                transport := "udp"
                udp :=
                  { server := env.externalHost
                    port := env.externalPort
                    key := hex.EncodeToString session.AesKey
                    nonce := hex.EncodeToString (fullNonce session.Nonce) }
                audio_params := built.OutputAudioFormat } ] }, e.isTeardown = false := by
    intro e he
    simp only [added, List.drop_left, List.mem_cons, List.mem_singleton, List.not_mem_nil,
      or_false] at he
    rcases he with h | h | h | h | h <;> rw [h] <;> rfl
  refine ⟨?_, ?_, hno, ?_, ?_, ?_, rfl, ?_, ?_⟩
  · simp [List.filter_filter]
  · simp [MqttServer.getChatManager, syncMap.Load]
  · intro hin
    exact absurd (hno _ hin) (by simp [Effect.isTeardown])
  · intro hin
    exact absurd (hno _ hin) (by simp [Effect.isTeardown])
  · intro hin
    exact absurd (hno _ hin) (by simp [Effect.isTeardown])
  · intro e hne
    simp only [List.mem_cons, List.mem_filter]
    constructor
    · intro he
      rcases he with h | h
      · exact absurd (by rw [h]) hne
      · exact h.1
    · intro he
      exact Or.inr ⟨he, by simpa using hne⟩
  · intro key hkey
    exact Load_store_other s.deviceId2ChatManager _ _ key hkey

/-- A second hello for the example device, with a new session allocated, satisfies the
hypotheses of C4. -/
theorem handleHello_supersedes_witness :
    (onceServer.handleHello laterEnv ⟨sampleTopic, helloPayload⟩ sampleHello).2.getChatManager
      (getDeviceIdByTopic sampleTopic).2 = some (boundHandler laterEnv laterBuilt ⟨"opus", 16000, 1, 60⟩) :=
  (handleHello_supersedes laterEnv onceServer ⟨sampleTopic, helloPayload⟩ sampleHello
    laterSession laterBuilt ⟨"opus", 16000, 1, 60⟩ (boundHandler sampleEnv sampleBuilt ⟨"opus", 16000, 1, 60⟩)
    (by decide) (by decide) (by decide) (by decide) (by decide) (by rfl) (by decide)).2.1

/-- C4 as stated fails: after a second hello for the example device the old handler is
cancelled and destroyed by nobody and the old transport session is not closed; the call
adds no tear-down effect at all. -/
theorem handleHello_supersedes_counterexample :
    onceServer.getChatManager "AA:BB:CC:DD:EE:FF"
      = some (boundHandler sampleEnv sampleBuilt ⟨"opus", 16000, 1, 60⟩) ∧
    (onceServer.handleHello laterEnv ⟨sampleTopic, helloPayload⟩ sampleHello).1
      = Completion.returned ∧
    (onceServer.handleHello laterEnv ⟨sampleTopic, helloPayload⟩ sampleHello).2.getChatManager
      "AA:BB:CC:DD:EE:FF" = some (boundHandler laterEnv laterBuilt ⟨"opus", 16000, 1, 60⟩) ∧
    Effect.CloseSession sampleSession.ID ∉
      (onceServer.handleHello laterEnv ⟨sampleTopic, helloPayload⟩ sampleHello).2.trace ∧
    Effect.Cancel (boundHandler sampleEnv sampleBuilt ⟨"opus", 16000, 1, 60⟩).clientState ∉
      (onceServer.handleHello laterEnv ⟨sampleTopic, helloPayload⟩ sampleHello).2.trace ∧
    Effect.Destroy (boundHandler sampleEnv sampleBuilt ⟨"opus", 16000, 1, 60⟩).clientState ∉
      (onceServer.handleHello laterEnv ⟨sampleTopic, helloPayload⟩ sampleHello).2.trace := by
  decide

/-- C10, the code at the failing input: a `udp` hello without `audio_params` on the
example topic. `handleHello` stores the new handler, then panics on the nil
`AudioParams`; no reply is written and the audio pipeline is not started. -/
theorem handleHello_without_audio_params :
    sampleEnv.Unmarshal bareHelloPayload
      = some { Type_ := "hello", Transport := "udp", AudioParams := none } ∧
    (emptyServer.handleMessage sampleEnv ⟨sampleTopic, bareHelloPayload⟩).1
      = Completion.panicked ∧
    replies (emptyServer.handleMessage sampleEnv ⟨sampleTopic, bareHelloPayload⟩).2.trace = [] ∧
    ((emptyServer.handleMessage sampleEnv ⟨sampleTopic, bareHelloPayload⟩).2.getChatManager
      "AA:BB:CC:DD:EE:FF").isSome = true := by
  decide

/-- C5, the code at the failing input: a non-hello message for a device that has no
registry entry. The registry is unchanged and the last-active refresh is skipped, but
`HandleTextMessage` is still called, on the nil handler. -/
theorem handleMessage_unregistered_dispatch :
    emptyServer.getChatManager (getDeviceIdByTopic sampleTopic).2 = none ∧
    emptyServer.handleMessage sampleEnv ⟨sampleTopic, listenPayload⟩
      = (Completion.returned,
          { deviceId2ChatManager := [],
            trace := [Effect.HandleTextMessage none listenPayload] }) := by
  decide

theorem visit_eq (env : Env) (st : MqttServer) (e : String × ChatManager) :
    st.visit env e.1 e.2 =
      if env.IsActive e.2.GetClientState then st
      else
        { deviceId2ChatManager := st.deviceId2ChatManager.filter (fun x => x.1 ≠ e.1)
          trace := st.trace ++ teardown e } := by
  unfold MqttServer.visit
  cases h : env.IsActive e.2.GetClientState <;>
    simp [MqttServer.emit, syncMap.Delete, teardown, ChatManager.GetClientState] <;>
    simp [ChatManager.GetClientState] at h <;> simp [h]

theorem foldl_visit (env : Env) (l : syncMap ChatManager) :
    ∀ st : MqttServer,
      l.foldl (fun st e => st.visit env e.1 e.2) st =
        { deviceId2ChatManager :=
            st.deviceId2ChatManager.filter (fun x => x.1 ∉ (inactive env l).map Prod.fst)
          trace := st.trace ++ (inactive env l).flatMap teardown } := by
  induction l with
  | nil => intro st; simp [inactive]
  | cons e es ih =>
    intro st
    rw [List.foldl_cons, ih, visit_eq]
    cases h : env.IsActive e.2.GetClientState
    · have hf : inactive env (e :: es) = e :: inactive env es := by
        simp [inactive, List.filter_cons, h]
      rw [hf]
      simp only [h, Bool.false_eq_true, if_false, List.filter_filter, List.map_cons,
        List.flatMap_cons, List.append_assoc, MqttServer.mk.injEq, and_true]
      apply List.filter_congr
      intro x _
      by_cases hx : x.1 = e.1 <;> simp [hx]
    · have hf : inactive env (e :: es) = inactive env es := by
        simp [inactive, List.filter_cons, h]
      rw [hf]
      simp

theorem eq_of_fst_eq {V : Type} (m : syncMap V) (h : (m.map Prod.fst).Nodup)
    (x y : String × V) (hx : x ∈ m) (hy : y ∈ m) (hxy : x.1 = y.1) : x = y :=
  List.inj_on_of_nodup_map h hx hy hxy

theorem tick_eq (env : Env) (s : MqttServer)
    (hkeys : (s.deviceId2ChatManager.map Prod.fst).Nodup) :
    s.tick env =
      { deviceId2ChatManager := active env s.deviceId2ChatManager
        trace := s.trace ++ (inactive env s.deviceId2ChatManager).flatMap teardown } := by
  unfold MqttServer.tick
  rw [foldl_visit]
  congr 1
  unfold active
  apply List.filter_congr
  intro x hx
  cases h : env.IsActive x.2.GetClientState
  · simp only [decide_eq_false_iff_not, not_not, List.mem_map]
    exact ⟨x, by simp [inactive, hx, h], rfl⟩
  · simp only [decide_eq_true_eq, List.mem_map, not_exists, not_and]
    intro y hy hxy
    have hy2 := List.mem_filter.1 hy
    have := eq_of_fst_eq _ hkeys y x hy2.1 hx hxy
    subst this
    simp [h] at hy2

theorem Load_of_mem {V : Type} (m : syncMap V) (h : (m.map Prod.fst).Nodup)
    (e : String × V) (he : e ∈ m) : syncMap.Load m e.1 = some e.2 := by
  unfold syncMap.Load
  induction m with
  | nil => cases he
  | cons x xs ih =>
    rw [List.map_cons, List.nodup_cons] at h
    rcases List.mem_cons.1 he with hx | hx
    · subst hx; simp
    · have hne : x.1 ≠ e.1 := by
        intro hxe
        exact h.1 (hxe ▸ List.mem_map_of_mem Prod.fst hx)
      simp only [List.find?_cons, hne, decide_False]
      exact ih h.2 hx

theorem Load_eq_none {V : Type} (m : syncMap V) (key : String)
    (h : ∀ x ∈ m, x.1 ≠ key) : syncMap.Load m key = none := by
  unfold syncMap.Load
  rw [Option.map_eq_none', List.find?_eq_none]
  intro x hx
  simpa using h x hx

theorem mem_flatMap_teardown (l : syncMap ChatManager) (eff : Effect)
    (h : eff ∈ l.flatMap teardown) : ∃ x ∈ l, eff ∈ teardown x := by
  simpa [List.mem_flatMap] using h

theorem count_Delete (l : syncMap ChatManager) (key : String) :
    (l.flatMap teardown).count (Effect.Delete key) = (l.map Prod.fst).count key := by
  induction l with
  | nil => rfl
  | cons x xs ih =>
    rw [List.flatMap_cons, List.count_append, ih, List.map_cons, List.count_cons]
    by_cases hk : x.1 = key
    · simp [teardown, List.count_cons, hk]; omega
    · simp [teardown, List.count_cons, hk]

theorem count_Cancel (l : syncMap ChatManager) (cs : ClientState) :
    (l.flatMap teardown).count (Effect.Cancel cs)
      = (l.map fun e => e.2.GetClientState).count cs := by
  induction l with
  | nil => rfl
  | cons x xs ih =>
    rw [List.flatMap_cons, List.count_append, ih, List.map_cons, List.count_cons]
    by_cases hk : x.2.GetClientState = cs
    · simp [teardown, List.count_cons, hk]; omega
    · simp [teardown, List.count_cons, hk]

theorem count_Destroy (l : syncMap ChatManager) (cs : ClientState) :
    (l.flatMap teardown).count (Effect.Destroy cs)
      = (l.map fun e => e.2.GetClientState).count cs := by
  induction l with
  | nil => rfl
  | cons x xs ih =>
    rw [List.flatMap_cons, List.count_append, ih, List.map_cons, List.count_cons]
    by_cases hk : x.2.GetClientState = cs
    · simp [teardown, List.count_cons, hk]; omega
    · simp [teardown, List.count_cons, hk]

theorem count_CloseSession (l : syncMap ChatManager) (id : String) :
    (l.flatMap teardown).count (Effect.CloseSession id)
      = (l.map fun e => e.2.GetClientState.UdpInfo.ID).count id := by
  induction l with
  | nil => rfl
  | cons x xs ih =>
    rw [List.flatMap_cons, List.count_append, ih, List.map_cons, List.count_cons]
    by_cases hk : x.2.GetClientState.UdpInfo.ID = id
    · simp [teardown, List.count_cons, hk]; omega
    · simp [teardown, List.count_cons, hk]

theorem nodup_handlers (m : syncMap ChatManager) (hkeys : (m.map Prod.fst).Nodup)
    (hid : ∀ e ∈ m, e.2.GetDeviceId = e.1) :
    (m.map fun e => e.2.GetClientState).Nodup := by
  have hmap : m.map Prod.fst
      = (m.map fun e => e.2.GetClientState).map ClientState.DeviceID := by
    rw [List.map_map]
    apply List.map_congr_left
    intro e he
    exact (hid e he).symm
  rw [hmap] at hkeys
  exact List.Nodup.of_map _ hkeys

/-- C6. For every registry state (well formed: one entry per key, each handler stored
under its own device identifier, as in every state `handleMessage` and the tick produce
from the empty server), one supervisor tick (1) leaves exactly the active entries, bound as
before; (2) adds to the trace, for each inactive entry in visiting order, the block
close-session, delete, cancel, destroy; (3) for an inactive entry that block occurs in
the added effects, its delete, cancel and destroy occur exactly once, and the entry is
gone; (4) for an active entry the lookup is unchanged and no delete, cancel or destroy
of it is added; (5) when the entries hold pairwise different transport sessions, the
session of an inactive entry is closed exactly once and that of an active entry not at
all. -/
theorem tick_reclaims (env : Env) (s : MqttServer) (hwf : s.WellFormed) :
    (s.tick env).deviceId2ChatManager = active env s.deviceId2ChatManager ∧
    added s (s.tick env) = (inactive env s.deviceId2ChatManager).flatMap teardown ∧
    (s.tick env).trace = s.trace ++ added s (s.tick env) ∧
    (∀ e ∈ s.deviceId2ChatManager, env.IsActive e.2.GetClientState = false →
      (∃ pre post, added s (s.tick env) = pre ++ teardown e ++ post) ∧
      (added s (s.tick env)).count (Effect.Delete e.1) = 1 ∧
      (added s (s.tick env)).count (Effect.Cancel e.2.GetClientState) = 1 ∧
      (added s (s.tick env)).count (Effect.Destroy e.2.GetClientState) = 1 ∧
      (s.tick env).getChatManager e.1 = none) ∧
    (∀ e ∈ s.deviceId2ChatManager, env.IsActive e.2.GetClientState = true →
      (s.tick env).getChatManager e.1 = some e.2 ∧
      Effect.Delete e.1 ∉ added s (s.tick env) ∧
      Effect.Cancel e.2.GetClientState ∉ added s (s.tick env) ∧
      Effect.Destroy e.2.GetClientState ∉ added s (s.tick env)) ∧
    ((s.deviceId2ChatManager.map fun e => e.2.GetClientState.UdpInfo.ID).Nodup →
      ∀ e ∈ s.deviceId2ChatManager,
        (added s (s.tick env)).count (Effect.CloseSession e.2.GetClientState.UdpInfo.ID)
          = if env.IsActive e.2.GetClientState then 0 else 1) := by
  obtain ⟨hkeys, hid⟩ := hwf
  have hadd : added s (s.tick env) = (inactive env s.deviceId2ChatManager).flatMap teardown := by
    rw [tick_eq env s hkeys]; simp [added]
  have hsub : (inactive env s.deviceId2ChatManager).Sublist s.deviceId2ChatManager :=
    List.filter_sublist _
  have hsubA : (active env s.deviceId2ChatManager).Sublist s.deviceId2ChatManager :=
    List.filter_sublist _
  have hkeysI : ((inactive env s.deviceId2ChatManager).map Prod.fst).Nodup :=
    hkeys.sublist (hsub.map _)
  have hkeysA : ((active env s.deviceId2ChatManager).map Prod.fst).Nodup :=
    hkeys.sublist (hsubA.map _)
  have hhI : ((inactive env s.deviceId2ChatManager).map fun e => e.2.GetClientState).Nodup :=
    (nodup_handlers _ hkeys hid).sublist (hsub.map _)
  refine ⟨?_, hadd, ?_, ?_, ?_, ?_⟩
  · rw [tick_eq env s hkeys]
  · rw [hadd, tick_eq env s hkeys]
  · intro e he hina
    have hmem : e ∈ inactive env s.deviceId2ChatManager := by
      simp [inactive, he, hina]
    rw [hadd]
    refine ⟨?_, ?_, ?_, ?_, ?_⟩
    · obtain ⟨a, b, hab⟩ := List.append_of_mem hmem
      exact ⟨a.flatMap teardown, b.flatMap teardown, by rw [hab]; simp⟩
    · rw [count_Delete]
      exact List.count_eq_one_of_mem hkeysI (List.mem_map_of_mem Prod.fst hmem)
    · rw [count_Cancel]
      exact List.count_eq_one_of_mem hhI
        (List.mem_map_of_mem (fun e => e.2.GetClientState) hmem)
    · rw [count_Destroy]
      exact List.count_eq_one_of_mem hhI
        (List.mem_map_of_mem (fun e => e.2.GetClientState) hmem)
    · rw [tick_eq env s hkeys]
      apply Load_eq_none
      intro x hx hxe
      have hx2 := List.mem_filter.1 hx
      have := eq_of_fst_eq _ hkeys x e hx2.1 he hxe
      subst this
      simp [hina] at hx2
  · intro e he hact
    have hmem : e ∈ active env s.deviceId2ChatManager := by
      simp [active, he, hact]
    have hnot : ∀ x ∈ inactive env s.deviceId2ChatManager, x ≠ e := by
      intro x hx hxe
      subst hxe
      have := (List.mem_filter.1 hx).2
      simp [hact] at this
    rw [hadd]
    refine ⟨?_, ?_, ?_, ?_⟩
    · rw [tick_eq env s hkeys]
      exact Load_of_mem _ hkeysA e hmem
    · intro hin
      obtain ⟨x, hx, hxe⟩ := mem_flatMap_teardown _ _ hin
      have hk : x.1 = e.1 := by
        simp only [teardown, List.mem_cons, List.mem_singleton, List.not_mem_nil, or_false,
          Effect.Delete.injEq, false_or, reduceCtorEq] at hxe
        exact hxe.symm
      exact hnot x hx (eq_of_fst_eq _ hkeys x e (hsub.subset hx) he hk)
    · intro hin
      obtain ⟨x, hx, hxe⟩ := mem_flatMap_teardown _ _ hin
      have hc : x.2.GetClientState = e.2.GetClientState := by
        simp only [teardown, List.mem_cons, List.mem_singleton, List.not_mem_nil, or_false,
          Effect.Cancel.injEq, Effect.Destroy.injEq, false_or, or_false, reduceCtorEq] at hxe
        exact hxe.symm
      have hk : x.1 = e.1 := by
        rw [← hid x (hsub.subset hx), ← hid e he]
        exact congrArg ClientState.DeviceID hc
      exact hnot x hx (eq_of_fst_eq _ hkeys x e (hsub.subset hx) he hk)
    · intro hin
      obtain ⟨x, hx, hxe⟩ := mem_flatMap_teardown _ _ hin
      have hc : x.2.GetClientState = e.2.GetClientState := by
        simp only [teardown, List.mem_cons, List.mem_singleton, List.not_mem_nil, or_false,
          Effect.Cancel.injEq, Effect.Destroy.injEq, false_or, or_false, reduceCtorEq] at hxe
        exact hxe.symm
      have hk : x.1 = e.1 := by
        rw [← hid x (hsub.subset hx), ← hid e he]
        exact congrArg ClientState.DeviceID hc
      exact hnot x hx (eq_of_fst_eq _ hkeys x e (hsub.subset hx) he hk)
  · intro hsess e he
    rw [hadd, count_CloseSession]
    have hsessI :
        ((inactive env s.deviceId2ChatManager).map fun e => e.2.GetClientState.UdpInfo.ID).Nodup :=
      hsess.sublist (hsub.map _)
    cases hact : env.IsActive e.2.GetClientState
    · have hmem : e ∈ inactive env s.deviceId2ChatManager := by
        simp [inactive, he, hact]
      simpa using List.count_eq_one_of_mem hsessI
        (List.mem_map_of_mem (fun e => e.2.GetClientState.UdpInfo.ID) hmem)
    · simp only [if_true]
      rw [List.count_eq_zero]
      intro hin
      obtain ⟨x, hx, hxe⟩ := List.mem_map.1 hin
      have hxe2 : x = e :=
        List.inj_on_of_nodup_map hsess (hsub.subset hx) he hxe
      subst hxe2
      have := (List.mem_filter.1 hx).2
      simp [hact] at this

/-- One tick on a registry of an inactive and an active device: the hypotheses of C6
hold there and only the active device stays. -/
theorem tick_reclaims_witness :
    (twoServer.tick sampleEnv).deviceId2ChatManager
      = [("AA:BB:CC:DD:EE:FF", ⟨sampleState "AA:BB:CC:DD:EE:FF" "s2"⟩)] ∧
    (twoServer.tick sampleEnv).trace
      = [ Effect.CloseSession "s1", Effect.Delete "AA:BB",
          Effect.Cancel (sampleState "AA:BB" "s1"), Effect.Destroy (sampleState "AA:BB" "s1") ] :=
  ⟨(tick_reclaims sampleEnv twoServer (by decide)).1.trans (by decide),
    (tick_reclaims sampleEnv twoServer (by decide)).2.2.1.trans (by decide)⟩

theorem wellFormed_empty : emptyServer.WellFormed := by
  simp [MqttServer.WellFormed, emptyServer]

theorem wellFormed_emit (s : MqttServer) (e : Effect) (h : s.WellFormed) :
    (s.emit e).WellFormed := h

theorem wellFormed_SetChatManager (s : MqttServer) (chatManager : ChatManager)
    (h : s.WellFormed) : (s.SetChatManager chatManager).WellFormed := by
  obtain ⟨hk, hid⟩ := h
  have hsub : (s.deviceId2ChatManager.filter fun e => e.1 ≠ chatManager.GetDeviceId).Sublist
      s.deviceId2ChatManager := List.filter_sublist _
  refine ⟨?_, ?_⟩
  · simp only [MqttServer.SetChatManager, MqttServer.emit, syncMap.Store, List.map_cons,
      List.nodup_cons]
    refine ⟨?_, hk.sublist (hsub.map _)⟩
    intro hin
    obtain ⟨x, hx, hxe⟩ := List.mem_map.1 hin
    have := (List.mem_filter.1 hx).2
    simp [hxe] at this
  · intro e he
    simp only [MqttServer.SetChatManager, MqttServer.emit, syncMap.Store, List.mem_cons] at he
    rcases he with h1 | h1
    · rw [h1]
    · exact hid e (hsub.subset h1)

theorem wellFormed_assign (s : MqttServer) (key : String) (clientState : ClientState)
    (hcs : clientState.DeviceID = key) (h : s.WellFormed) :
    (s.assign key clientState).WellFormed := by
  obtain ⟨hk, hid⟩ := h
  have hfst : (s.assign key clientState).deviceId2ChatManager.map Prod.fst
      = s.deviceId2ChatManager.map Prod.fst := by
    simp only [MqttServer.assign, List.map_map]
    apply List.map_congr_left
    intro e _
    by_cases he : e.1 = key <;> simp [he]
  refine ⟨by rw [hfst]; exact hk, ?_⟩
  intro e he
  simp only [MqttServer.assign, List.mem_map] at he
  obtain ⟨x, hx, hxe⟩ := he
  by_cases hxk : x.1 = key
  · simp only [hxk, if_true] at hxe
    rw [← hxe]
    exact hcs
  · simp only [hxk, if_false] at hxe
    rw [← hxe]
    exact hid x hx

/-- The registry invariant holds after `handleHello`, however the call ends. -/
theorem wellFormed_handleHello (env : Env) (s : MqttServer) (msg : Message)
    (clientMsg : ClientMessage) (h : s.WellFormed) :
    (s.handleHello env msg clientMsg).2.WellFormed := by
  unfold MqttServer.handleHello
  by_cases hT : clientMsg.Transport = "udp"
  swap
  · simp only [ne_eq, hT, not_false_eq_true, if_true]
    exact h
  cases hS : env.CreateSession msg.Topic with
  | none =>
    simp only [hT, ne_eq, not_true_eq_false, if_false, hS]
    exact wellFormed_emit _ _ h
  | some session =>
    by_cases hd : (getDeviceIdByTopic msg.Topic).2 = ""
    · simp only [hT, ne_eq, not_true_eq_false, if_false, hS, hd, if_true]
      exact wellFormed_emit _ _ h
    cases hG : GenMqttUdpClientState env (getDeviceIdByTopic msg.Topic).2
        (env.ServerPubTopicPrefix ++ (getDeviceIdByTopic msg.Topic).1) session clientMsg with
    | error err =>
      simp only [hT, ne_eq, not_true_eq_false, if_false, hS, hd, hG]
      exact wellFormed_emit _ _ h
    | ok clientState =>
      have hstore := wellFormed_SetChatManager _ (NewChatManager clientState)
        (wellFormed_emit _ (.SessionBind session.ID clientState)
          (wellFormed_emit _ (.CreateSession msg.Topic) h))
      cases hA : clientMsg.AudioParams with
      | none =>
        simp only [hT, ne_eq, not_true_eq_false, if_false, hS, hd, hG, hA]
        exact hstore
      | some audioParams =>
        simp only [hT, ne_eq, not_true_eq_false, if_false, hS, hd, hG, hA]
        exact wellFormed_emit _ _ (wellFormed_emit _ _ (wellFormed_assign _ _ _ rfl hstore))

/-- The registry invariant holds after `handleMessage`. -/
theorem wellFormed_handleMessage (env : Env) (s : MqttServer) (msg : Message)
    (h : s.WellFormed) : (s.handleMessage env msg).2.WellFormed := by
  unfold MqttServer.handleMessage
  cases hU : env.Unmarshal msg.Payload with
  | none => exact h
  | some clientMsg =>
    by_cases hH : clientMsg.Type_ = env.MessageTypeHello
    · simp only [hH, if_true]
      exact wellFormed_handleHello _ _ _ _ h
    by_cases hd : (getDeviceIdByTopic msg.Topic).2 = ""
    · simp only [hH, if_false, hd, if_true]
      exact h
    simp only [hH, if_false, hd]
    cases hC : s.getChatManager (getDeviceIdByTopic msg.Topic).2 with
    | none => exact wellFormed_emit _ _ h
    | some cm => exact wellFormed_emit _ _ (wellFormed_emit _ _ h)

/-- The registry invariant holds after a supervisor tick. -/
theorem wellFormed_tick (env : Env) (s : MqttServer) (h : s.WellFormed) :
    (s.tick env).WellFormed := by
  obtain ⟨hk, hid⟩ := h
  have hsub : (active env s.deviceId2ChatManager).Sublist s.deviceId2ChatManager :=
    List.filter_sublist _
  rw [tick_eq env s hk]
  exact ⟨hk.sublist (hsub.map _), fun e he => hid e (hsub.subset he)⟩

/-- The registry invariant holds in every state reached from the empty server. -/
theorem wellFormed_reachable (steps : List Step) :
    (steps.foldl MqttServer.step emptyServer).WellFormed := by
  suffices h : ∀ s : MqttServer, s.WellFormed → (steps.foldl MqttServer.step s).WellFormed from
    h _ wellFormed_empty
  induction steps with
  | nil => intro s hs; exact hs
  | cons st rest ih =>
    intro s hs
    rw [List.foldl_cons]
    apply ih
    cases st with
    | message env msg => exact wellFormed_handleMessage env s msg hs
    | tick env => exact wellFormed_tick env s hs

end mqtt_udp

namespace doubao

theorem uptoFirstTerminal_cons (r : AsrResponse) (rs : List AsrResponse) :
    uptoFirstTerminal (r :: rs)
      = if r.IsLastPackage then [r] else r :: uptoFirstTerminal rs := by
  unfold uptoFirstTerminal
  cases hl : r.IsLastPackage <;> simp [List.takeWhile_cons, List.dropWhile_cons, hl]

/-- One response taken by the receiver, in terms of its text and transcript. -/
theorem receive_recv (client : Option AsrWsClient) (room : Option Nat) (r : AsrResponse)
    (rest : List Select) :
    receiveStreamResults client room (.recv r :: rest) =
      if text r ≠ "" ∧ room = some 0 then (false, [])
      else if r.IsLastPackage then
        (true, (if text r ≠ "" then [Action.send (transcript r)] else []) ++ deferred client)
      else
        ((receiveStreamResults client (if text r ≠ "" then room.map (· - 1) else room) rest).1,
          (if text r ≠ "" then [Action.send (transcript r)] else [])
            ++ (receiveStreamResults client
                (if text r ≠ "" then room.map (· - 1) else room) rest).2) := by
  rw [receiveStreamResults]
  unfold text transcript text
  cases hp : r.PayloadMsg with
  | none => simp
  | some payload =>
    by_cases ht : payload.Result.Text = ""
    · simp [ht]
    · simp [ht]

theorem outputs_append (a b : List Action) : outputs (a ++ b) = outputs a ++ outputs b := by
  simp [outputs, List.filterMap_append]

theorem outputs_deferred (client : Option AsrWsClient) : outputs (deferred client) = [] := by
  cases client <;> rfl

theorem outputs_sent (r : AsrResponse) :
    outputs (if text r ≠ "" then [Action.send (transcript r)] else [])
      = if text r ≠ "" then [transcript r] else [] := by
  by_cases h : text r = "" <;> simp [h, outputs]

theorem outputs_nil : outputs [] = [] := rfl

theorem outputs_send (o : StreamingResult) (acts : List Action) :
    outputs (Action.send o :: acts) = o :: outputs acts := by
  simp [outputs]

theorem outputs_map_send (outs : List StreamingResult) :
    outputs (outs.map Action.send) = outs := by
  induction outs with
  | nil => rfl
  | cons o os ih => simpa [outputs] using ih

/-- With a consumer that never stops reading, the output is the transcripts of the
responses with text up to the first terminal one. -/
theorem outputs_receive_then (client : Option AsrWsClient) (tail : List Select)
    (htail : outputs (receiveStreamResults client none tail).2 = []) (rs : List AsrResponse) :
    outputs (receiveStreamResults client none (rs.map Select.recv ++ tail)).2
      = ((uptoFirstTerminal rs).filter (fun r => text r ≠ "")).map transcript := by
  induction rs with
  | nil => simpa [uptoFirstTerminal] using htail
  | cons r rs ih =>
    rw [List.map_cons, List.cons_append, receive_recv, uptoFirstTerminal_cons]
    cases hl : r.IsLastPackage
    · by_cases ht : text r = ""
      · simp [ht, ih, List.filter_cons, outputs_nil]
      · simp [ht, ih, List.filter_cons, outputs_send]
    · by_cases ht : text r = ""
      · simp [ht, List.filter_cons, outputs_deferred]
      · simp [ht, List.filter_cons, outputs_send, outputs_deferred]

/-- With room for `n` more sends, the output is the first `n` of those transcripts. -/
theorem outputs_receive_room (client : Option AsrWsClient) (tail : List Select)
    (htail : ∀ n, outputs (receiveStreamResults client (some n) tail).2 = [])
    (rs : List AsrResponse) :
    ∀ n, outputs (receiveStreamResults client (some n) (rs.map Select.recv ++ tail)).2
      = (((uptoFirstTerminal rs).filter (fun r => text r ≠ "")).map transcript).take n := by
  induction rs with
  | nil => intro n; simpa [uptoFirstTerminal] using htail n
  | cons r rs ih =>
    intro n
    rw [List.map_cons, List.cons_append, receive_recv, uptoFirstTerminal_cons]
    cases hl : r.IsLastPackage
    · by_cases ht : text r = ""
      · simp [ht, ih, List.filter_cons, outputs_nil]
      · cases n with
        | zero => simp [ht, outputs_nil]
        | succ m => simp [ht, ih, List.filter_cons, outputs_send]
    · by_cases ht : text r = ""
      · simp [ht, List.filter_cons, outputs_deferred]
      · cases n with
        | zero => simp [ht, outputs_nil]
        | succ m => simp [ht, List.filter_cons, outputs_send, outputs_deferred]

theorem uptoFirstTerminal_append_last (ks : List AsrResponse) (last : AsrResponse)
    (hks : ∀ k ∈ ks, k.IsLastPackage = false) (hlast : last.IsLastPackage = true) :
    uptoFirstTerminal (ks ++ [last]) = ks ++ [last] := by
  induction ks with
  | nil => simp [uptoFirstTerminal_cons, hlast]
  | cons k ks ih =>
    have hk : k.IsLastPackage = false := hks k (by simp)
    have ih2 := ih (fun x hx => hks x (by simp [hx]))
    rw [List.cons_append, uptoFirstTerminal_cons, ih2]
    simp [hk]

/-- C7 (amended). For every finite sequence of responses delivered to the receiver
without cancellation, with a consumer that keeps reading the output, the output is, in
order, the transcripts (text and terminal flag of the response) of the responses with
non-empty text among those up to and including the first terminal one, also when the
response channel is closed after them; no transcript has empty text. When the output
channel has room for only `n` more sends, the output is the first `n` of these
transcripts. In particular, when every response before the last has empty text and is
not terminal and the last is terminal with non-empty text, the output is exactly the
transcript of the last, with terminal true, as soon as the channel has room for one
send, as the channel of a request always has. -/
theorem receiveStreamResults_outputs (client : Option AsrWsClient) :
    (∀ rs : List AsrResponse,
      outputs (receiveStreamResults client none (rs.map Select.recv)).2
        = ((uptoFirstTerminal rs).filter (fun r => text r ≠ "")).map transcript ∧
      outputs (receiveStreamResults client none (rs.map Select.recv ++ [Select.closed])).2
        = ((uptoFirstTerminal rs).filter (fun r => text r ≠ "")).map transcript ∧
      ∀ o ∈ outputs (receiveStreamResults client none (rs.map Select.recv)).2, o.Text ≠ "") ∧
    (∀ (n : Nat) (rs : List AsrResponse),
      outputs (receiveStreamResults client (some n) (rs.map Select.recv)).2
        = (((uptoFirstTerminal rs).filter (fun r => text r ≠ "")).map transcript).take n ∧
      outputs (receiveStreamResults client (some n) (rs.map Select.recv ++ [Select.closed])).2
        = (((uptoFirstTerminal rs).filter (fun r => text r ≠ "")).map transcript).take n) ∧
    (∀ (room : Option Nat) (ks : List AsrResponse) (last : AsrResponse),
      room ≠ some 0 →
      (∀ k ∈ ks, text k = "" ∧ k.IsLastPackage = false) →
      last.IsLastPackage = true → text last ≠ "" →
      outputs (receiveStreamResults client room ((ks ++ [last]).map Select.recv)).2
        = [{ Text := text last, IsFinal := true }]) ∧
    (∀ reads : Option Nat, freshRoom reads ≠ some 0) := by
  have hnone : ∀ rs : List AsrResponse,
      outputs (receiveStreamResults client none (rs.map Select.recv)).2
        = ((uptoFirstTerminal rs).filter (fun r => text r ≠ "")).map transcript := by
    intro rs
    have h := outputs_receive_then client [] (by simp [receiveStreamResults, outputs_nil]) rs
    simpa using h
  have hsome : ∀ (n : Nat) (rs : List AsrResponse),
      outputs (receiveStreamResults client (some n) (rs.map Select.recv)).2
        = (((uptoFirstTerminal rs).filter (fun r => text r ≠ "")).map transcript).take n := by
    intro n rs
    have h := outputs_receive_room client []
      (by intro n; simp [receiveStreamResults, outputs_nil]) rs n
    simpa using h
  refine ⟨fun rs => ⟨hnone rs, ?_, ?_⟩, fun n rs => ⟨hsome n rs, ?_⟩, ?_, ?_⟩
  · exact outputs_receive_then client [Select.closed]
      (by simp [receiveStreamResults, outputs_deferred]) rs
  · intro o ho
    rw [hnone] at ho
    obtain ⟨r, hr, rfl⟩ := List.mem_map.1 ho
    have := (List.mem_filter.1 hr).2
    simpa [transcript] using this
  · exact outputs_receive_room client [Select.closed]
      (by intro n; simp [receiveStreamResults, outputs_deferred]) rs n
  · intro room ks last hroom hks hlast htext
    have hE : ((uptoFirstTerminal (ks ++ [last])).filter (fun r => text r ≠ "")).map transcript
        = [{ Text := text last, IsFinal := true }] := by
      rw [uptoFirstTerminal_append_last ks last (fun k hk => (hks k hk).2) hlast,
        List.filter_append]
      have hnil : ks.filter (fun r => decide (text r ≠ "")) = [] := by
        rw [List.filter_eq_nil_iff]
        intro k hk
        simp [(hks k hk).1]
      rw [hnil]
      simp [htext, transcript, hlast]
    cases room with
    | none => rw [hnone, hE]
    | some n =>
      cases n with
      | zero => exact absurd rfl hroom
      | succ m => rw [hsome, hE]; simp
  · intro reads
    cases reads <;> simp [freshRoom]

/-- C7 as stated fails when an earlier empty-text response is itself terminal: the
receiver stops at it, and the later terminal response with text `hi` is never emitted,
even with a consumer that keeps reading. -/
theorem receiveStreamResults_outputs_counterexample :
    text (response "" true) = "" ∧
    (response "hi" true).IsLastPackage = true ∧ text (response "hi" true) ≠ "" ∧
    outputs (receiveStreamResults (some sampleClient) none
      ([response "" true, response "hi" true].map Select.recv)).2 = [] := by
  decide

/-- Whatever the room and the outcomes, a run of the receiver is a series of sends,
followed by the deferred function exactly when the receiver returned. -/
theorem receive_shape (client : Option AsrWsClient) (sched : List Select) :
    ∀ room : Option Nat, ∃ outs : List StreamingResult,
      receiveStreamResults client room sched = (true, outs.map Action.send ++ deferred client) ∨
      receiveStreamResults client room sched = (false, outs.map Action.send) := by
  induction sched with
  | nil => intro room; exact ⟨[], Or.inr (by simp [receiveStreamResults])⟩
  | cons e es ih =>
    intro room
    cases e with
    | ctxDone => exact ⟨[], Or.inl (by simp [receiveStreamResults])⟩
    | closed => exact ⟨[], Or.inl (by simp [receiveStreamResults])⟩
    | recv r =>
      rw [receive_recv]
      by_cases hb : text r ≠ "" ∧ room = some 0
      · exact ⟨[], Or.inr (by rw [if_pos hb]; rfl)⟩
      · rw [if_neg hb]
        cases hl : r.IsLastPackage
        · obtain ⟨outs, houts⟩ := ih (if text r ≠ "" then room.map (· - 1) else room)
          by_cases ht : text r = ""
          · refine ⟨outs, ?_⟩
            rcases houts with h | h
            · left; simp [ht] at h ⊢; rw [h]
            · right; simp [ht] at h ⊢; rw [h]
          · refine ⟨transcript r :: outs, ?_⟩
            rcases houts with h | h
            · left; simp [ht] at h ⊢; rw [h]; exact ⟨rfl, rfl⟩
            · right; simp [ht] at h ⊢; rw [h]; exact ⟨rfl, rfl⟩
        · by_cases ht : text r = ""
          · exact ⟨[], Or.inl (by simp [ht])⟩
          · exact ⟨[transcript r], Or.inl (by simp [ht])⟩

/-- The output channel is closed exactly in the runs in which the receiver returned. -/
theorem closed_iff_returned (client : Option AsrWsClient) (room : Option Nat)
    (sched : List Select) :
    Action.closeResultChan ∈ (receiveStreamResults client room sched).2 ↔
      (receiveStreamResults client room sched).1 = true := by
  obtain ⟨outs, h | h⟩ := receive_shape client sched room
  · rw [h]; simp [deferred]
  · rw [h]; simp

/-- With a consumer that keeps reading, the receiver returns as soon as a cancellation,
a closed response channel or a terminal response occurs. -/
theorem receive_ends (client : Option AsrWsClient) (sched : List Select)
    (h : ∃ e ∈ sched, e.ends = true) :
    (receiveStreamResults client none sched).1 = true := by
  induction sched with
  | nil => simp at h
  | cons e es ih =>
    cases e with
    | ctxDone => simp [receiveStreamResults]
    | closed => simp [receiveStreamResults]
    | recv r =>
      rw [receive_recv]
      cases hl : r.IsLastPackage
      · have hes : ∃ e ∈ es, e.ends = true := by
          obtain ⟨e, he, hend⟩ := h
          rcases List.mem_cons.1 he with h1 | h1
          · subst h1; simp [Select.ends, hl] at hend
          · exact ⟨e, h1, hend⟩
        simpa using ih hes
      · simp

/-- When the receiver of a started request returns, the actions of the request end with
closing the output channel and then the connection, neither of which occurs earlier:
each happens exactly once and nothing is sent after the output channel is closed. -/
theorem recognize_teardown_when_returned (c : AsrWsClient) (b : Backend)
    (reads : Option Nat) (sched : List Select)
    (hopen : b.CreateConnection = none) (hinit : b.SendFullClientRequest = none)
    (hret : (receiveStreamResults (some c) (freshRoom reads) sched).1 = true) :
    (∃ front : List Action,
      recognize c b reads sched = front ++ [Action.closeResultChan, Action.Close] ∧
      Action.closeResultChan ∉ front ∧ Action.Close ∉ front) ∧
    (recognize c b reads sched).count Action.closeResultChan = 1 ∧
    (recognize c b reads sched).count Action.Close = 1 := by
  obtain ⟨outs, houts | houts⟩ := receive_shape (some c) sched (freshRoom reads)
  swap
  · rw [houts] at hret; cases hret
  have hrec : recognize c b reads sched =
      ([Action.CreateConnection, Action.SendFullClientRequest, Action.goStartAudioStream,
        Action.goReceiveStreamResults] ++ outs.map Action.send)
        ++ [Action.closeResultChan, Action.Close] := by
    simp [recognize, StreamingRecognize, hopen, hinit, houts, deferred]
  have hc1 : Action.closeResultChan ∉
      [Action.CreateConnection, Action.SendFullClientRequest, Action.goStartAudioStream,
        Action.goReceiveStreamResults] ++ outs.map Action.send := by
    simp
  have hc2 : Action.Close ∉
      [Action.CreateConnection, Action.SendFullClientRequest, Action.goStartAudioStream,
        Action.goReceiveStreamResults] ++ outs.map Action.send := by
    simp
  refine ⟨⟨_, hrec, hc1, hc2⟩, ?_, ?_⟩
  · rw [hrec, List.count_append, List.count_eq_zero_of_not_mem hc1]
    decide
  · rw [hrec, List.count_append, List.count_eq_zero_of_not_mem hc2]
    decide

/-- C8, the code at the failing input: a started request whose consumer never reads,
eleven partial results `x`, then the context is cancelled. Ten sends fill the output
channel, the eleventh blocks outside the `select`, the cancellation is never seen: the
receiver does not return, and neither the output channel nor the connection is closed. -/
theorem recognize_blocked_send_never_closes :
    (StreamingRecognize ⟨none, none⟩).1 = (true, none) ∧
    Select.ctxDone ∈ List.replicate 11 (Select.recv (response "x" false)) ++ [Select.ctxDone] ∧
    receiveStreamResults (some sampleClient) (freshRoom (some 0))
        (List.replicate 11 (Select.recv (response "x" false)) ++ [Select.ctxDone])
      = (false, List.replicate 10 (Action.send ⟨"x", false⟩)) ∧
    (recognize sampleClient ⟨none, none⟩ (some 0)
        (List.replicate 11 (Select.recv (response "x" false)) ++ [Select.ctxDone])).count
      Action.closeResultChan = 0 ∧
    (recognize sampleClient ⟨none, none⟩ (some 0)
        (List.replicate 11 (Select.recv (response "x" false)) ++ [Select.ctxDone])).count
      Action.Close = 0 := by
  decide

/-- C9. `StreamingRecognize` returns an error and no output channel exactly when opening
the connection or sending the initialization fails. When opening fails, its only action
is the attempt to open. When initialization fails, it closes the connection once, as its
last action, and starts neither goroutine. When both succeed it returns the output
channel and no error, having started the forwarder and the receiver without closing. -/
theorem StreamingRecognize_outcomes (b : Backend) :
    (((StreamingRecognize b).1.1 = false ∧ (StreamingRecognize b).1.2 ≠ none) ↔
      (b.CreateConnection ≠ none ∨ b.SendFullClientRequest ≠ none)) ∧
    ((StreamingRecognize b).1.1 = true ↔ (StreamingRecognize b).1.2 = none) ∧
    (b.CreateConnection ≠ none → (StreamingRecognize b).2 = [Action.CreateConnection]) ∧
    (b.CreateConnection = none → b.SendFullClientRequest ≠ none →
      (StreamingRecognize b).2
        = [Action.CreateConnection, Action.SendFullClientRequest, Action.Close]) ∧
    (b.CreateConnection = none → b.SendFullClientRequest = none →
      (StreamingRecognize b).1 = (true, none) ∧
      (StreamingRecognize b).2
        = [Action.CreateConnection, Action.SendFullClientRequest, Action.goStartAudioStream,
            Action.goReceiveStreamResults]) := by
  obtain ⟨co, so⟩ := b
  cases co <;> cases so <;> simp [StreamingRecognize]

end doubao

namespace mqtt_udp

theorem added_emit (s : MqttServer) (e : Effect) : added s (s.emit e) = [e] := by
  simp [added, MqttServer.emit]

theorem added_self (s : MqttServer) : added s s = [] := by
  simp [added]

/-- The state `handleHello` ends in on each of its four abort paths. -/
theorem handleHello_abort_eq (env : Env) (s : MqttServer) (msg : Message)
    (clientMsg : ClientMessage)
    (habort : clientMsg.Transport ≠ "udp" ∨ env.CreateSession msg.Topic = none ∨
      (getDeviceIdByTopic msg.Topic).2 = "" ∨
      ∃ session err, env.CreateSession msg.Topic = some session ∧
        GenMqttUdpClientState env (getDeviceIdByTopic msg.Topic).2
          (env.ServerPubTopicPrefix ++ (getDeviceIdByTopic msg.Topic).1) session clientMsg
            = .error err) :
    s.handleHello env msg clientMsg =
      (Completion.returned,
        if clientMsg.Transport ≠ "udp" then s else s.emit (.CreateSession msg.Topic)) := by
  unfold MqttServer.handleHello
  by_cases hT : clientMsg.Transport = "udp"
  swap
  · simp only [ne_eq, hT, not_false_eq_true, if_true]
  cases hS : env.CreateSession msg.Topic with
  | none => simp only [hT, ne_eq, not_true_eq_false, if_false, hS]
  | some session =>
    by_cases hd : (getDeviceIdByTopic msg.Topic).2 = ""
    · simp only [hT, ne_eq, not_true_eq_false, if_false, hS, hd, if_true]
    · rcases habort with h | h | h | ⟨session2, err, hS2, hG⟩
      · exact absurd hT h
      · rw [hS] at h; cases h
      · exact absurd h hd
      · rw [hS] at hS2
        cases hS2
        simp only [hT, ne_eq, not_true_eq_false, if_false, hS, hd, hG]

/-- C11 (amended). Whenever `handleHello` aborts a handshake (transport not `udp`,
allocation failed, no device identifier in the topic, or handler construction failed),
it returns, writes no reply, leaves the registry unchanged and closes no transport
session. When the transport is not `udp` or allocation failed, the call leaves no
session open. When allocation succeeded and the abort came later, the session the call
allocated is still open when it returns. -/
theorem handleHello_abort (env : Env) (s : MqttServer) (msg : Message)
    (clientMsg : ClientMessage)
    (habort : clientMsg.Transport ≠ "udp" ∨ env.CreateSession msg.Topic = none ∨
      (getDeviceIdByTopic msg.Topic).2 = "" ∨
      ∃ session err, env.CreateSession msg.Topic = some session ∧
        GenMqttUdpClientState env (getDeviceIdByTopic msg.Topic).2
          (env.ServerPubTopicPrefix ++ (getDeviceIdByTopic msg.Topic).1) session clientMsg
            = .error err) :
    (s.handleHello env msg clientMsg).1 = Completion.returned ∧
    (s.handleHello env msg clientMsg).2.deviceId2ChatManager = s.deviceId2ChatManager ∧
    replies (added s (s.handleHello env msg clientMsg).2) = [] ∧
    closedIds (added s (s.handleHello env msg clientMsg).2) = [] ∧
    ((clientMsg.Transport ≠ "udp" ∨ env.CreateSession msg.Topic = none) →
      stillOpen env (added s (s.handleHello env msg clientMsg).2) = []) ∧
    (∀ session, clientMsg.Transport = "udp" → env.CreateSession msg.Topic = some session →
      stillOpen env (added s (s.handleHello env msg clientMsg).2) = [session.ID]) := by
  rw [handleHello_abort_eq env s msg clientMsg habort]
  by_cases hT : clientMsg.Transport = "udp"
  · rw [if_neg (not_not.2 hT)]
    refine ⟨rfl, rfl, ?_, ?_, ?_, ?_⟩
    · rw [added_emit]; rfl
    · rw [added_emit]; rfl
    · intro h
      rcases h with h | hS
      · exact absurd hT h
      · rw [added_emit]
        simp [stillOpen, allocated, hS]
    · intro session _ hS
      rw [added_emit]
      simp [stillOpen, allocated, closedIds, hS]
  · rw [if_pos hT]
    refine ⟨rfl, rfl, ?_, ?_, ?_, ?_⟩
    · rw [added_self]; rfl
    · rw [added_self]; rfl
    · intro _
      rw [added_self]; rfl
    · intro session h _
      exact absurd h hT

/-- A hello whose handler construction fails satisfies the hypothesis of C11: nothing is
registered or replied, and the session allocated for it stays open. -/
theorem handleHello_abort_witness :
    (emptyServer.handleHello failingEnv ⟨sampleTopic, helloPayload⟩ sampleHello).2.deviceId2ChatManager
      = [] ∧
    stillOpen failingEnv
      (emptyServer.handleHello failingEnv ⟨sampleTopic, helloPayload⟩ sampleHello).2.trace
      = ["session:a/b/c/AA_BB_CC_DD_EE_FF"] :=
  ⟨(handleHello_abort failingEnv emptyServer ⟨sampleTopic, helloPayload⟩ sampleHello
      (Or.inr (Or.inr (Or.inr ⟨sampleSession, "no provider configured", by decide, by rfl⟩)))).2.1,
    by decide⟩

/-- C11 as stated fails on the topic `a/b/c`, which has three segments and so yields no
device identifier: the call has already allocated a transport session when it aborts,
never closes it, and the session is still open when the call returns. -/
theorem handleHello_abort_counterexample :
    sampleHello.Transport = "udp" ∧
    (getDeviceIdByTopic "a/b/c").2 = "" ∧
    (sampleEnv.CreateSession "a/b/c").map UdpSession.ID = some "session:a/b/c" ∧
    (emptyServer.handleHello sampleEnv ⟨"a/b/c", helloPayload⟩ sampleHello).1
      = Completion.returned ∧
    (emptyServer.handleHello sampleEnv ⟨"a/b/c", helloPayload⟩ sampleHello).2.trace
      = [Effect.CreateSession "a/b/c"] ∧
    stillOpen sampleEnv
      (emptyServer.handleHello sampleEnv ⟨"a/b/c", helloPayload⟩ sampleHello).2.trace
      = ["session:a/b/c"] := by
  decide

end mqtt_udp

namespace doubao

theorem outputs_sent_length (r : AsrResponse) :
    (outputs (if text r ≠ "" then [Action.send (transcript r)] else [])).length ≤ 1 := by
  rw [outputs_sent]
  by_cases h : text r = "" <;> simp [h]

theorem outputs_sent_isFinal (r : AsrResponse) :
    ∀ o ∈ outputs (if text r ≠ "" then [Action.send (transcript r)] else []),
      o.IsFinal = r.IsLastPackage := by
  intro o ho
  rw [outputs_sent] at ho
  by_cases h : text r = ""
  · simp [h] at ho
  · simp only [ne_eq, h, not_false_eq_true, if_true, List.mem_singleton] at ho
    rw [ho]; rfl

theorem trigger_mem_consumed (sched : List Select) (e : Select)
    (h : trigger sched = some e) : e ∈ consumed sched := by
  induction sched with
  | nil => simp [trigger] at h
  | cons x xs ih =>
    unfold consumed
    cases hx : x.ends
    · have hxs : trigger xs = some e := by
        simpa [trigger, List.find?_cons, hx] using h
      simp [ih hxs]
    · have : x = e := by
        simpa [trigger, List.find?_cons, hx] using h
      simp [this]

/-- A run in which the receiver returned was ended by some outcome. -/
theorem returned_trigger (client : Option AsrWsClient) (sched : List Select) :
    ∀ room : Option Nat, (receiveStreamResults client room sched).1 = true →
      ∃ e, trigger sched = some e := by
  induction sched with
  | nil => intro room h; simp [receiveStreamResults] at h
  | cons e es ih =>
    intro room h
    cases e with
    | ctxDone => exact ⟨Select.ctxDone, by simp [trigger, Select.ends]⟩
    | closed => exact ⟨Select.closed, by simp [trigger, Select.ends]⟩
    | recv r =>
      cases hl : r.IsLastPackage
      · rw [receive_recv] at h
        by_cases hb : text r ≠ "" ∧ room = some 0
        · rw [if_pos hb] at h; cases h
        · rw [if_neg hb] at h
          simp only [hl, Bool.false_eq_true, if_false] at h
          obtain ⟨e, he⟩ := ih _ h
          exact ⟨e, by simpa [trigger, List.find?_cons, Select.ends, hl] using he⟩
      · exact ⟨Select.recv r, by simp [trigger, List.find?_cons, Select.ends, hl]⟩

/-- A run ended by a terminal response in which the receiver returned: the output is
some non-terminal transcripts followed by the transcript of that response if it has
text. -/
theorem outputs_of_terminal_trigger (client : Option AsrWsClient) (sched : List Select)
    (last : AsrResponse) :
    ∀ room : Option Nat, (receiveStreamResults client room sched).1 = true →
      trigger sched = some (Select.recv last) →
      ∃ front : List StreamingResult, (∀ o ∈ front, o.IsFinal = false) ∧
        outputs (receiveStreamResults client room sched).2
          = front ++ (if text last ≠ "" then [transcript last] else []) := by
  induction sched with
  | nil => intro room _ h; simp [trigger] at h
  | cons e es ih =>
    intro room hret h
    cases e with
    | ctxDone => simp [trigger, Select.ends] at h
    | closed => simp [trigger, Select.ends] at h
    | recv r =>
      rw [receive_recv] at hret ⊢
      by_cases hb : text r ≠ "" ∧ room = some 0
      · rw [if_pos hb] at hret; cases hret
      · rw [if_neg hb] at hret ⊢
        cases hl : r.IsLastPackage
        · have hes : trigger es = some (Select.recv last) := by
            simpa [trigger, List.find?_cons, Select.ends, hl] using h
          simp only [hl, Bool.false_eq_true, if_false] at hret ⊢
          obtain ⟨front, hfront, hout⟩ := ih _ hret hes
          refine ⟨outputs (if text r ≠ "" then [Action.send (transcript r)] else []) ++ front,
            ?_, ?_⟩
          · intro o ho
            rcases List.mem_append.1 ho with h1 | h1
            · rw [outputs_sent_isFinal r o h1, hl]
            · exact hfront o h1
          · rw [outputs_append, hout, List.append_assoc]
        · have hlast : last = r := by
            simp [trigger, List.find?_cons, Select.ends, hl] at h
            exact h.symm
          subst hlast
          refine ⟨[], by simp, ?_⟩
          simp only [if_true, outputs_append, outputs_sent, outputs_deferred, List.append_nil,
            List.nil_append]

/-- In every run the output is some non-terminal transcripts followed by at most one
more transcript. -/
theorem outputs_front_tail (client : Option AsrWsClient) (sched : List Select) :
    ∀ room : Option Nat, ∃ front tail : List StreamingResult,
      outputs (receiveStreamResults client room sched).2 = front ++ tail ∧
      (∀ o ∈ front, o.IsFinal = false) ∧ tail.length ≤ 1 := by
  induction sched with
  | nil =>
    intro room
    exact ⟨[], [], by simp [receiveStreamResults, outputs_nil], by simp, by simp⟩
  | cons e es ih =>
    intro room
    cases e with
    | ctxDone =>
      exact ⟨[], [], by simp [receiveStreamResults, outputs_deferred], by simp, by simp⟩
    | closed =>
      exact ⟨[], [], by simp [receiveStreamResults, outputs_deferred], by simp, by simp⟩
    | recv r =>
      rw [receive_recv]
      by_cases hb : text r ≠ "" ∧ room = some 0
      · rw [if_pos hb]
        exact ⟨[], [], by simp [outputs_nil], by simp, by simp⟩
      · rw [if_neg hb]
        cases hl : r.IsLastPackage
        · obtain ⟨front, tail, hout, hfront, htail⟩ :=
            ih (if text r ≠ "" then room.map (· - 1) else room)
          refine ⟨outputs (if text r ≠ "" then [Action.send (transcript r)] else []) ++ front,
            tail, ?_, ?_, htail⟩
          · simp only [Bool.false_eq_true, if_false, outputs_append, hout, List.append_assoc]
          · intro o ho
            rcases List.mem_append.1 ho with h1 | h1
            · rw [outputs_sent_isFinal r o h1, hl]
            · exact hfront o h1
        · refine ⟨[], outputs (if text r ≠ "" then [Action.send (transcript r)] else []),
            ?_, by simp, outputs_sent_length r⟩
          simp only [if_true, outputs_append, outputs_deferred, List.append_nil,
            List.nil_append]

theorem dropLast_front_tail (front tail : List StreamingResult) (htail : tail.length ≤ 1) :
    ∀ o ∈ (front ++ tail).dropLast, o ∈ front := by
  intro o ho
  match tail, htail with
  | [], _ =>
    rw [List.append_nil] at ho
    exact List.mem_of_mem_dropLast ho
  | [x], _ =>
    rw [List.dropLast_concat] at ho
    exact ho

/-- C12 (amended). For every run of the receiver in which the output channel is closed
and neither a cancellation nor a closed response channel is among the outcomes the run
can have taken: the receiver returned and the run was ended by a terminal response;
when that response has text, the output is non-empty and its last transcript is that of
the response, terminal-flagged; when it has no text, nothing is emitted for it and the
output has no terminal-flagged transcript. And in every run every transcript but the
last is non-terminal, so at most one terminal-flagged transcript is emitted and nothing
follows it. -/
theorem receiveStreamResults_terminal (client : Option AsrWsClient) (room : Option Nat)
    (sched : List Select)
    (hclosed : Action.closeResultChan ∈ (receiveStreamResults client room sched).2)
    (hctx : Select.ctxDone ∉ consumed sched)
    (hch : Select.closed ∉ consumed sched) :
    (∃ last : AsrResponse,
      trigger sched = some (Select.recv last) ∧
      last.IsLastPackage = true ∧
      (receiveStreamResults client room sched).1 = true ∧
      (text last ≠ "" →
        outputs (receiveStreamResults client room sched).2 ≠ [] ∧
        (outputs (receiveStreamResults client room sched).2).getLast?
          = some { Text := text last, IsFinal := true }) ∧
      (text last = "" →
        ∀ o ∈ outputs (receiveStreamResults client room sched).2, o.IsFinal = false)) ∧
    (∀ (space : Option Nat) (run : List Select),
      (∀ o ∈ (outputs (receiveStreamResults client space run).2).dropLast,
        o.IsFinal = false) ∧
      ((outputs (receiveStreamResults client space run).2).filter
        (fun o => o.IsFinal)).length ≤ 1) := by
  have hret : (receiveStreamResults client room sched).1 = true :=
    (closed_iff_returned client room sched).1 hclosed
  obtain ⟨e, he⟩ := returned_trigger client sched room hret
  have hmem := trigger_mem_consumed sched e he
  refine ⟨?_, ?_⟩
  · cases e with
    | ctxDone => exact absurd hmem hctx
    | closed => exact absurd hmem hch
    | recv last =>
      obtain ⟨front, hfront, hout⟩ :=
        outputs_of_terminal_trigger client sched last room hret he
      have hlast : last.IsLastPackage = true := by
        have := List.find?_some he
        simpa [Select.ends] using this
      refine ⟨last, he, hlast, hret, ?_, ?_⟩
      · intro ht
        rw [hout]
        simp [ht, transcript, hlast]
      · intro ht o ho
        rw [hout] at ho
        simp only [ht, ne_eq, not_true_eq_false, if_false, List.append_nil] at ho
        exact hfront o ho
  · intro space run
    obtain ⟨fr, tl, ho, hfr, htl⟩ := outputs_front_tail client run space
    rw [ho]
    refine ⟨fun o hin => hfr o (dropLast_front_tail fr tl htl o hin), ?_⟩
    have hnil : fr.filter (fun o => o.IsFinal) = [] := by
      rw [List.filter_eq_nil_iff]
      intro o hin
      simp [hfr o hin]
    rw [List.filter_append, hnil, List.nil_append]
    exact le_trans (List.length_filter_le _ _) htl

/-- A partial result followed by a terminal one with text, read by the consumer: the
output channel is closed with no cancellation and no closed response channel, and the
run was ended by the terminal response. -/
theorem receiveStreamResults_terminal_witness :
    ∃ last : AsrResponse,
      trigger [Select.recv (response "he" false), Select.recv (response "hello" true)]
        = some (Select.recv last) ∧
      last.IsLastPackage = true ∧
      (receiveStreamResults (some sampleClient) none
        [Select.recv (response "he" false), Select.recv (response "hello" true)]).1 = true ∧
      (text last ≠ "" →
        outputs (receiveStreamResults (some sampleClient) none
          [Select.recv (response "he" false), Select.recv (response "hello" true)]).2 ≠ [] ∧
        (outputs (receiveStreamResults (some sampleClient) none
          [Select.recv (response "he" false), Select.recv (response "hello" true)]).2).getLast?
          = some { Text := text last, IsFinal := true }) ∧
      (text last = "" →
        ∀ o ∈ outputs (receiveStreamResults (some sampleClient) none
          [Select.recv (response "he" false), Select.recv (response "hello" true)]).2,
          o.IsFinal = false) :=
  (receiveStreamResults_terminal (some sampleClient) none
    [Select.recv (response "he" false), Select.recv (response "hello" true)]
    (by decide) (by decide) (by decide)).1

/-- C12 as stated fails when the terminal response has no text. After a partial result
`he` and an empty terminal response the output channel is closed, with no cancellation
and no closed response channel among the outcomes and a consumer that keeps reading, and
its last transcript is not terminal-flagged; after an empty terminal response alone the
output channel is closed and the output is empty. -/
theorem receiveStreamResults_terminal_counterexample :
    Select.ctxDone ∉ [Select.recv (response "he" false), Select.recv (response "" true)] ∧
    Select.closed ∉ [Select.recv (response "he" false), Select.recv (response "" true)] ∧
    receiveStreamResults (some sampleClient) none
        [Select.recv (response "he" false), Select.recv (response "" true)]
      = (true, [Action.send ⟨"he", false⟩, Action.closeResultChan, Action.Close]) ∧
    (outputs (receiveStreamResults (some sampleClient) none
        [Select.recv (response "he" false), Select.recv (response "" true)]).2).getLast?
      = some { Text := "he", IsFinal := false } ∧
    receiveStreamResults (some sampleClient) none [Select.recv (response "" true)]
      = (true, [Action.closeResultChan, Action.Close]) ∧
    outputs (receiveStreamResults (some sampleClient) none [Select.recv (response "" true)]).2
      = [] := by
  decide

end doubao
